import Mathlib

/-!
# The descriptor layer of `fs/vfs/main.c`

A shallow embedding of the POSIX entry points of `fs/vfs/main.c` (open, close,
read, write, lseek, the stat family, ll_readdir, mkdir, mknod, dup, dup2) and of
the boot procedure (mount_rootfs, unpack_bootfs, vfs_init).

* The single task `main_task`, `errno`, the File Objects reachable from the
  descriptor table and the vnode reference counts form the explicit state `World`.
* Every call that leaves `main.c` (task_conv, the `sys_*` primitives, vref, printf,
  ...) is recorded in `World.log`; its result is taken from the oracle `Env`, indexed
  by the number of calls made so far, so that any sequence of results can occur.
* A function of `main.c` becomes a function `World → Res α`: it returns, halts in
  `sys_panic`, or performs an access C leaves undefined (`Res.fault`).
-/

namespace Vfs

/-! ## Constants of headers that are not part of the sources -/

/-- Constants that `main.c` takes from headers outside the sources
(`limits.h`, `errno.h`, `fcntl.h`, `vnode.h`). -/
structure Consts where
  OPEN_MAX : Nat
  EBADF : Int
  EMFILE : Int
  ENOSYS : Int
  O_ACCMODE : Int
  O_RDONLY : Int
  O_WRONLY : Int
  O_RDWR : Int
  O_CREAT : Int
  O_TRUNC : Int
  VREAD : Int
  VWRITE : Int

/-- The values of the x86-64 Linux headers and of the Prex `vnode.h`, with a table of
four descriptors; used for concrete runs. -/
def K4 : Consts :=
  { OPEN_MAX := 4, EBADF := 9, EMFILE := 24, ENOSYS := 38,
    O_ACCMODE := 3, O_RDONLY := 0, O_WRONLY := 1, O_RDWR := 2,
    O_CREAT := 64, O_TRUNC := 512, VREAD := 4, VWRITE := 2 }

/-! ## Machine integers -/

/-- Conversion to a signed integer of `w` bits (two's complement wrap-around). -/
def wrapS (w : Nat) (x : Int) : Int :=
  (x + 2 ^ (w - 1)) % 2 ^ w - 2 ^ (w - 1)

/-- Conversion to an unsigned integer of `w` bits. -/
def wrapU (w : Nat) (x : Int) : Int :=
  x % 2 ^ w

/-! ## State -/

/-- A `file_t` is the address of a `struct file`; `NULL` is `none` in a slot. -/
abbrev file_t := Nat

/-- The fields of `struct file` that `main.c` touches. The counters are declared in
`file.h` and `vnode.h`, outside the sources, and are kept as mathematical integers. -/
structure file where
  f_vnode : Nat
  f_count : Int
deriving DecidableEq, Repr

/-- The fields of `struct task` that `main.c` touches: `t_ofile[OPEN_MAX]` (only the
indices below `OPEN_MAX` are ever accessed) and `t_nopens`. -/
structure task where
  t_ofile : Nat → Option file_t
  t_nopens : Int

/-- The content of a `struct stat` output buffer. -/
abbrev stat := List Int

/-- The content of a `struct dirent` output entry. -/
abbrev dirent := List Int

/-- A call that leaves `main.c`, with its arguments. -/
inductive Call where
  | task_conv (pathname : String) (acc : Int)
  | sys_open (path : String) (flags mode : Int)
  | sys_close (fp : file_t)
  | sys_mknod (path : String) (mode : Int)
  | sys_lseek (fp : file_t) (offset whence : Int)
  | sys_read (fp : file_t) (count : Nat)
  | sys_write (fp : file_t) (buf : Nat) (count : Nat)
  | sys_fstat (fp : file_t)
  | sys_readdir (fp : file_t)
  | sys_mkdir (path : String) (mode : Int)
  | sys_stat (path : String)
  | sys_mount (dev dir fsname : String) (flags : Int)
  | vref (vnode : Nat)
  | vnode_init
  | task_alloc
  | console_init
  | vs_init (vs_name : String)
  | printf (fmt : String)
  | perror (s : String)
deriving DecidableEq, Repr

/-- The state the entry points of `main.c` act on. -/
structure World where
  /-- The task `*main_task`. -/
  t : task
  errno : Int
  /-- The live File Objects; `none` for an address that holds no File Object
  (never created, or destroyed). -/
  files : file_t → Option file
  /-- The reference count of each vnode. -/
  v_refcnt : Nat → Int
  /-- The calls made so far, oldest first. -/
  log : List Call

/-- An access whose behaviour C leaves undefined. -/
inductive Fault where
  /-- `t_ofile[idx]` with `idx` outside `0 .. OPEN_MAX-1`. -/
  | out_of_bounds (idx : Int)
  /-- An access to the File Object at `fp` after it was destroyed. -/
  | released_object (fp : file_t)
  /-- The bootfs records were read past the end of the image. -/
  | bootfs_overrun
deriving DecidableEq, Repr

/-- The outcome of running a function of `main.c`. -/
inductive Res (α : Type) where
  /-- The function returned `a`. -/
  | ok (a : α) (w : World)
  /-- The function entered `sys_panic`, which never returns. -/
  | halt (w : World)
  /-- The function performed an undefined access. -/
  | fault (f : Fault) (w : World)

/-- The final (or halting, or faulting) state of an outcome. -/
def Res.world {α : Type} : Res α → World
  | .ok _ w => w
  | .halt w => w
  | .fault _ w => w

/-- The returned value, when the function returned. -/
def Res.ret? {α : Type} : Res α → Option α
  | .ok a _ => some a
  | .halt _ => none
  | .fault _ _ => none

/-- Whether the run ended in `sys_panic`. -/
def Res.isHalt {α : Type} : Res α → Bool
  | .halt _ => true
  | _ => false

/-- The undefined access a run ended in, if any. -/
def Res.fault? {α : Type} : Res α → Option Fault
  | .fault f _ => some f
  | _ => none

/-- A function of `main.c` acting on the state. -/
def M (α : Type) : Type := World → Res α

/-- Sequencing: a halt or a fault ends the run. -/
def M.bind {α β : Type} (m : M α) (f : α → M β) : M β := fun w =>
  match m w with
  | .ok a w1 => f a w1
  | .halt w1 => .halt w1
  | .fault e w1 => .fault e w1

instance : Monad M where
  pure a := fun w => .ok a w
  bind := M.bind

/-! ## The oracle for the external VFS -/

/-- The results of the calls that leave `main.c`. The first argument of every field is
the number of calls made before this one, so the same call may give different results
at different times. -/
structure Env where
  /-- The error code and the converted path. -/
  task_conv : Nat → String → Int → Int × String
  /-- The error code, the address of the new File Object and its vnode. -/
  sys_open : Nat → String → Int → Int → Int × file_t × Nat
  sys_close : Nat → file_t → Int
  sys_mknod : Nat → String → Int → Int
  /-- The error code and the new position. -/
  sys_lseek : Nat → file_t → Int → Int → Int × Int
  /-- The error code and the transferred byte count (a `size_t`). -/
  sys_read : Nat → file_t → Nat → Int × Nat
  /-- The error code and the transferred byte count (a `size_t`). -/
  sys_write : Nat → file_t → Nat → Nat → Int × Nat
  /-- The error code and the new content of the buffer. -/
  sys_fstat : Nat → file_t → Int × stat
  /-- The error code and the new content of the entry. -/
  sys_readdir : Nat → file_t → Int × dirent
  sys_mkdir : Nat → String → Int → Int
  /-- The error code and the new content of the buffer. -/
  sys_stat : Nat → String → Int × stat
  sys_mount : Nat → String → String → String → Int → Int
  /-- The names of the table `vfssw`, up to its terminator. -/
  vfssw : List String

/-! ## Primitive steps -/

/-- Record a call. -/
def emit (c : Call) : M Unit := fun w =>
  .ok () { w with log := w.log ++ [c] }

/-- The number of calls made so far. -/
def callIndex : M Nat := fun w => .ok w.log.length w

/-- Assignment to `errno`. -/
def set_errno (e : Int) : M Unit := fun w =>
  .ok () { w with errno := e }

/-- The label `out_errno:` of every entry point: `errno = error; return -1;`. -/
def out_errno (error : Int) : M Int := do
  set_errno error
  pure (-1)

/-- The array with slot `i` replaced by `v`. -/
def setSlot (a : Nat → Option file_t) (i : Nat) (v : Option file_t) : Nat → Option file_t :=
  fun j => if j = i then v else a j

/-- The read `t->t_ofile[fd]`. -/
def ofile_get (K : Consts) (fd : Int) : M (Option file_t) := fun w =>
  if 0 ≤ fd ∧ fd < K.OPEN_MAX then .ok (w.t.t_ofile fd.toNat) w
  else .fault (.out_of_bounds fd) w

/-- The write `t->t_ofile[fd] = v`. -/
def ofile_set (K : Consts) (fd : Int) (v : Option file_t) : M Unit := fun w =>
  if 0 ≤ fd ∧ fd < K.OPEN_MAX then
    .ok () { w with t := { w.t with t_ofile := setSlot w.t.t_ofile fd.toNat v } }
  else .fault (.out_of_bounds fd) w

/-- The update `t->t_nopens += d`. -/
def nopens_add (d : Int) : M Unit := fun w =>
  .ok () { w with t := { w.t with t_nopens := w.t.t_nopens + d } }

/-- The lowest index below `n` at or after `fd` whose slot is empty. -/
def firstEmpty (a : Nat → Option file_t) : Nat → Nat → Option Nat
  | 0, _ => none
  | n + 1, fd => if a fd = none then some fd else firstEmpty a n (fd + 1)

/-- Modelled from the spec: `task_newfd` is not part of the sources. The spec's
`allocate()` "returns the lowest-numbered empty slot index; fails [...] if the table is
full; does not mutate state on failure"; the callers in `main.c` test the result
against `-1`. -/
def task_newfd (K : Consts) (t : task) : Int :=
  match firstEmpty t.t_ofile K.OPEN_MAX 0 with
  | some fd => fd
  | none => -1

/-- Modelled from the spec: `task_getfp` is not part of the sources. The spec's
`lookup(slot)` "returns the bound File Object or fails [...] if the slot index is out
of range or empty"; the callers in `main.c` test the result against `NULL`. -/
def task_getfp (K : Consts) (t : task) (fd : Int) : Option file_t :=
  if 0 ≤ fd ∧ fd < K.OPEN_MAX then t.t_ofile fd.toNat else none

/-- Read the state of the task `*main_task`. -/
def get_task : M task := fun w => .ok w.t w

/-- Modelled from the spec: `task_conv` is not part of the sources. The Path/Access
Translator "produces a canonicalized path", "fails with whatever resolution error the
VFS reports" and "performs no side effects of its own". -/
def task_conv (env : Env) (pathname : String) (acc : Int) : M (Int × String) := do
  let n ← callIndex
  emit (.task_conv pathname acc)
  pure (env.task_conv n pathname acc)

/-- The array of File Objects with the one at `fp` replaced. -/
def setFile (h : file_t → Option file) (fp : file_t) (v : Option file) :
    file_t → Option file :=
  fun q => if q = fp then v else h q

/-- The vnode counts with the one of `vn` changed by `d`. -/
def addRef (r : Nat → Int) (vn : Nat) (d : Int) : Nat → Int :=
  fun v => if v = vn then r v + d else r v

/-- The read of a field of `*fp`. -/
def deref (fp : file_t) : M file := fun w =>
  match w.files fp with
  | some f => .ok f w
  | none => .fault (.released_object fp) w

/-- The write of the fields of `*fp`. -/
def file_store (fp : file_t) (f : file) : M Unit := fun w =>
  .ok () { w with files := setFile w.files fp (some f) }

/-- Change the reference count of the vnode `vn` by `d`. -/
def node_ref (vn : Nat) (d : Int) : M Unit := fun w =>
  .ok () { w with v_refcnt := addRef w.v_refcnt vn d }

/-- A new File Object at `fp` on the vnode `vn`, holding one reference to it, with
share counter one. -/
def file_create (fp : file_t) (vn : Nat) : M Unit := do
  file_store fp { f_vnode := vn, f_count := 1 }
  node_ref vn 1

/-- The File Object at `fp` is destroyed and its reference to the vnode `vn` released. -/
def file_destroy (fp : file_t) (vn : Nat) : M Unit := do
  (fun w => .ok () { w with files := setFile w.files fp none })
  node_ref vn (-1)

/-- Modelled from the spec: `sys_open` is not part of the sources. A File Object is
"created by the external VFS on a successful open"; it holds "a reference to the
underlying node" and "an internal share counter", which starts at one for the one
descriptor the caller binds. A failed open reports its error and creates nothing. -/
def sys_open (env : Env) (path : String) (flags mode : Int) : M (Int × file_t) := do
  let n ← callIndex
  emit (.sys_open path flags mode)
  let r := env.sys_open n path flags mode
  if r.1 ≠ 0 then pure (r.1, 0)
  else
    file_create r.2.1 r.2.2
    pure (0, r.2.1)

/-- Modelled from the spec: `sys_close` is not part of the sources. The share counter
of a File Object "decrements on close"; the object is "destroyed (and the underlying
node reference released) only when the share counter reaches zero". The VFS may also
refuse the close with an error, which changes nothing. A close of an address that
holds no File Object is an access to a released object. -/
def sys_close (env : Env) (fp : file_t) : M Int := do
  let n ← callIndex
  emit (.sys_close fp)
  let error := env.sys_close n fp
  if error ≠ 0 then pure error
  else
    let f ← deref fp
    if f.f_count - 1 = 0 then
      file_destroy fp f.f_vnode
    else
      file_store fp { f with f_count := f.f_count - 1 }
    pure 0

/-- Modelled from the spec: `vref` is not part of the sources. Duplication
"increments the node's and File Object's share counts"; `vref` is the node half. -/
def vref (vn : Nat) : M Unit := do
  emit (.vref vn)
  node_ref vn 1

/-- The statement `fp->f_count++`. -/
def f_count_incr (fp : file_t) : M Unit := do
  let f ← deref fp
  file_store fp { f with f_count := f.f_count + 1 }

/-- The external `sys_mknod`. -/
def sys_mknod (env : Env) (path : String) (mode : Int) : M Int := do
  let n ← callIndex
  emit (.sys_mknod path mode)
  pure (env.sys_mknod n path mode)

/-- The external `sys_lseek`: the error code and the new position. -/
def sys_lseek (env : Env) (fp : file_t) (offset whence : Int) : M (Int × Int) := do
  let n ← callIndex
  emit (.sys_lseek fp offset whence)
  pure (env.sys_lseek n fp offset whence)

/-- The external `sys_read`: the error code and the byte count. -/
def sys_read (env : Env) (fp : file_t) (count : Nat) : M (Int × Nat) := do
  let n ← callIndex
  emit (.sys_read fp count)
  pure (env.sys_read n fp count)

/-- The external `sys_write`: the error code and the byte count. -/
def sys_write (env : Env) (fp : file_t) (buf count : Nat) : M (Int × Nat) := do
  let n ← callIndex
  emit (.sys_write fp buf count)
  pure (env.sys_write n fp buf count)

/-- The external `sys_fstat`: the error code and the content of the buffer. -/
def sys_fstat (env : Env) (fp : file_t) : M (Int × stat) := do
  let n ← callIndex
  emit (.sys_fstat fp)
  pure (env.sys_fstat n fp)

/-- The external `sys_readdir`: the error code and the content of the entry. -/
def sys_readdir (env : Env) (fp : file_t) : M (Int × dirent) := do
  let n ← callIndex
  emit (.sys_readdir fp)
  pure (env.sys_readdir n fp)

/-- The external `sys_mkdir`. -/
def sys_mkdir (env : Env) (path : String) (mode : Int) : M Int := do
  let n ← callIndex
  emit (.sys_mkdir path mode)
  pure (env.sys_mkdir n path mode)

/-- The external `sys_stat`: the error code and the content of the buffer. -/
def sys_stat (env : Env) (path : String) : M (Int × stat) := do
  let n ← callIndex
  emit (.sys_stat path)
  pure (env.sys_stat n path)

/-- The external `sys_mount`. -/
def sys_mount (env : Env) (dev dir fsname : String) (flags : Int) : M Int := do
  let n ← callIndex
  emit (.sys_mount dev dir fsname flags)
  pure (env.sys_mount n dev dir fsname flags)

/-- The library call `printf`; only the format is recorded. -/
def printf (fmt : String) : M Unit := emit (.printf fmt)

/-- The library call `perror`. -/
def perror (s : String) : M Unit := emit (.perror s)

/-- `sys_panic`: `printf(str); while (1) ;`. The loop never ends, so the run halts. -/
def sys_panic (str : String) : M Unit := fun w =>
  .halt { w with log := w.log ++ [.printf str] }

/-! ## The entry points -/

/-- The `switch (flags & O_ACCMODE)` of `open`. -/
def open_acc (K : Consts) (flags : Int) : Int :=
  if Int.land flags K.O_ACCMODE = K.O_RDONLY then K.VREAD
  else if Int.land flags K.O_ACCMODE = K.O_WRONLY then K.VWRITE
  else if Int.land flags K.O_ACCMODE = K.O_RDWR then Int.lor K.VREAD K.VWRITE
  else 0

/-- `int open(const char *pathname, int flags, mode_t mode)`. -/
def «open» (K : Consts) (env : Env) (pathname : String) (flags mode : Int) : M Int := do
  let t ← get_task
  let fd := task_newfd K t
  if fd = -1 then
    set_errno K.EMFILE
    pure (-1)
  else
    let acc := open_acc K flags
    let c ← task_conv env pathname acc
    if c.1 ≠ 0 then out_errno c.1
    else
      let o ← sys_open env c.2 flags mode
      if o.1 ≠ 0 then out_errno o.1
      else
        ofile_set K fd (some o.2)
        nopens_add 1
        pure fd

/-- `int creat(const char *pathname, mode_t mode)`. -/
def creat (K : Consts) (env : Env) (pathname : String) (mode : Int) : M Int :=
  «open» K env pathname (Int.lor (Int.lor K.O_CREAT K.O_WRONLY) K.O_TRUNC) mode

/-- `int close(int fd)`. -/
def close (K : Consts) (env : Env) (fd : Int) : M Int := do
  if fd ≥ K.OPEN_MAX then out_errno K.EBADF
  else
    let fp ← ofile_get K fd
    match fp with
    | none => out_errno K.EBADF
    | some fp =>
      let error ← sys_close env fp
      if error ≠ 0 then out_errno error
      else
        ofile_set K fd none
        nopens_add (-1)
        pure 0

/-- `int mknod(const char *pathname, mode_t mode, dev_t dev)`. -/
def mknod (K : Consts) (env : Env) (pathname : String) (mode : Int) : M Int := do
  let c ← task_conv env pathname K.VWRITE
  if c.1 ≠ 0 then out_errno c.1
  else
    let error ← sys_mknod env c.2 mode
    if error ≠ 0 then out_errno error else pure 0

/-- `off_t lseek(int fd, off_t offset, int whence)`. -/
def lseek (K : Consts) (env : Env) (fd : Int) (offset whence : Int) : M Int := do
  let t ← get_task
  match task_getfp K t fd with
  | none => out_errno K.EBADF
  | some fp =>
    let r ← sys_lseek env fp offset whence
    if r.1 ≠ 0 then out_errno r.1 else pure r.2

/-- `ssize_t read(int fd, void *buf, size_t count)`; the `size_t` count of
transferred bytes is returned as an `ssize_t`. -/
def read (K : Consts) (env : Env) (fd : Int) (count : Nat) : M Int := do
  let t ← get_task
  match task_getfp K t fd with
  | none => out_errno K.EBADF
  | some fp =>
    let r ← sys_read env fp count
    if r.1 ≠ 0 then out_errno r.1 else pure (wrapS 64 r.2)

/-- `ssize_t write(int fd, const void *buf, size_t count)`. -/
def write (K : Consts) (env : Env) (fd : Int) (buf count : Nat) : M Int := do
  let t ← get_task
  match task_getfp K t fd with
  | none => out_errno K.EBADF
  | some fp =>
    let r ← sys_write env fp buf count
    if r.1 ≠ 0 then out_errno r.1 else pure (wrapS 64 r.2)

/-- `int __fxstat(int ver, int fd, struct stat *st)`. The local `error` has no
initialiser: `error0` is the indeterminate value it holds on entry. The result is
the returned value and the content of `*st`. -/
def __fxstat (K : Consts) (env : Env) (error0 : Int) (ver fd : Int) (st : stat) :
    M (Int × stat) := do
  set_errno K.ENOSYS
  if ver ≠ 1 then
    let r ← out_errno error0
    pure (r, st)
  else
    let t ← get_task
    match task_getfp K t fd with
    | none =>
      let r ← out_errno K.EBADF
      pure (r, st)
    | some fp =>
      let s ← sys_fstat env fp
      if s.1 ≠ 0 then
        let r ← out_errno s.1
        pure (r, s.2)
      else pure (0, s.2)

/-- `int ll_readdir(int fd, struct dirent *d)`. The result is the returned value and
the content of `*d`. -/
def ll_readdir (K : Consts) (env : Env) (fd : Int) (d : dirent) : M (Int × dirent) := do
  let t ← get_task
  match task_getfp K t fd with
  | none =>
    let r ← out_errno (-K.EBADF)
    pure (r, d)
  | some fp =>
    let s ← sys_readdir env fp
    if s.1 ≠ 0 then
      let r ← out_errno s.1
      pure (r, s.2)
    else pure (0, s.2)

/-- `int mkdir(const char *pathname, mode_t mode)`. -/
def mkdir (K : Consts) (env : Env) (pathname : String) (mode : Int) : M Int := do
  let c ← task_conv env pathname K.VWRITE
  if c.1 ≠ 0 then out_errno c.1
  else
    let error ← sys_mkdir env c.2 mode
    if error ≠ 0 then out_errno error else pure 0

/-- `int __xstat(int ver, const char *pathname, struct stat *st)`, with `error0` the
indeterminate initial value of the local `error`. -/
def __xstat (K : Consts) (env : Env) (error0 : Int) (ver : Int) (pathname : String)
    (st : stat) : M (Int × stat) := do
  set_errno K.ENOSYS
  if ver ≠ 1 then
    let r ← out_errno error0
    pure (r, st)
  else
    let c ← task_conv env pathname 0
    if c.1 ≠ 0 then
      let r ← out_errno c.1
      pure (r, st)
    else
      let s ← sys_stat env c.2
      if s.1 ≠ 0 then
        let r ← out_errno s.1
        pure (r, s.2)
      else pure (0, s.2)

/-- `int dup(int oldfd)`. -/
def dup (K : Consts) (oldfd : Int) : M Int := do
  let t ← get_task
  match task_getfp K t oldfd with
  | none => out_errno K.EBADF
  | some fp =>
    let newfd := task_newfd K t
    if newfd = -1 then out_errno K.EMFILE
    else
      ofile_set K newfd (some fp)
      let f ← deref fp
      vref f.f_vnode
      f_count_incr fp
      pure newfd

/-- `int dup2(int oldfd, int newfd)`. -/
def dup2 (K : Consts) (env : Env) (oldfd newfd : Int) : M Int := do
  if oldfd ≥ K.OPEN_MAX ∨ newfd ≥ K.OPEN_MAX then out_errno K.EBADF
  else
    let fp ← ofile_get K oldfd
    match fp with
    | none => out_errno K.EBADF
    | some fp =>
      let org ← ofile_get K newfd
      match org with
      | some org =>
        let _ ← sys_close env org
        pure ()
      | none => pure ()
      ofile_set K newfd (some fp)
      let f ← deref fp
      vref f.f_vnode
      f_count_incr fp
      pure newfd

/-! ## The boot procedure -/

/-- A record of the bootfs image: `struct bootfs_metadata`. The two `uint64_t` fields
are read modulo `2 ^ 64`; `name` is the string held by `char name[112]`. -/
structure bootfs_metadata where
  size : Nat
  offset : Nat
  name : String
deriving DecidableEq, Repr

/-- The value of the `uint64_t` field `size`. -/
def bootfs_metadata.size64 (md : bootfs_metadata) : Nat := md.size % 2 ^ 64

/-- The value of the `uint64_t` field `offset`. -/
def bootfs_metadata.offset64 (md : bootfs_metadata) : Nat := md.offset % 2 ^ 64

/-- The array `dirs` of `unpack_bootfs`, up to its `NULL` terminator. -/
def dirs : List String :=
  ["/usr", "/usr/lib", "/usr/lib/jvm", "/usr/lib/jvm/jre", "/usr/lib/jvm/jre/lib",
   "/usr/lib/jvm/jre/lib/amd64", "/usr/lib/jvm/jre/lib/amd64/server"]

/-- The first loop of `unpack_bootfs`, from the directory at the head of the list. -/
def unpack_dirs (K : Consts) (env : Env) : List String → M Unit
  | [] => pure ()
  | d :: ds => do
    printf "creating %s"
    let r ← mkdir K env d 0o666
    if r < 0 then
      perror "mkdir"
      sys_panic "foo"
    unpack_dirs K env ds

/-- The test `ret != md[i].size` of `unpack_bootfs`: `ret` is the `ssize_t` result of
`write` stored in an `int`, converted to `uint64_t` for the comparison. -/
def ret_ne_size (written : Int) (size64 : Nat) : Bool :=
  wrapU 64 (wrapS 32 written) ≠ (size64 : Int)

/-- The body of the second loop of `unpack_bootfs`, for the record `md`. -/
def unpack_file (K : Consts) (env : Env) (md : bootfs_metadata) : M Unit := do
  printf "unpacking %s"
  let fd ← creat K env md.name 0o666
  if fd < 0 then
    printf "couldn't create %s: %d\n"
    sys_panic "foo"
  let ret ← write K env fd md.offset64 md.size64
  if ret_ne_size ret md.size64 then
    printf "write failed, ret = %d, errno = %d\n"
    sys_panic "foo"
  let _ ← close K env fd
  pure ()

/-- The second loop of `unpack_bootfs`, from the record at the head of the list; the
records are those of the image, in order, and the loop ends at an empty name. -/
def unpack_files (K : Consts) (env : Env) : List bootfs_metadata → M Unit
  | [] => fun w => .fault .bootfs_overrun w
  | md :: rest =>
    if md.name = "" then pure ()
    else do
      unpack_file K env md
      unpack_files K env rest

/-- The iterations of the second loop of `unpack_bootfs` for the records `mds`, which
come before the terminator. -/
def unpack_records (K : Consts) (env : Env) : List bootfs_metadata → M Unit
  | [] => pure ()
  | md :: rest => do
    unpack_file K env md
    unpack_records K env rest

/-- `void unpack_bootfs(void)`, on the records `md` found at `bootfs_start`. -/
def unpack_bootfs (K : Consts) (env : Env) (md : List bootfs_metadata) : M Unit := do
  unpack_dirs K env dirs
  unpack_files K env md

/-- `void mount_rootfs(void)`. -/
def mount_rootfs (K : Consts) (env : Env) : M Unit := do
  let ret ← sys_mount env "" "/" "ramfs" 0
  if ret ≠ 0 then printf "failed to mount rootfs, error = %d\n"
  else printf "mounted rootfs\n"
  let r ← mkdir K env "/dev" 0o755
  if r < 0 then printf "failed to create /dev, error = %d\n"
  let _ ← sys_mount env "" "/dev" "devfs" 0
  if ret ≠ 0 then printf "failed to mount devfs, error = %d\n"
  else printf "mounted devfs\n"

/-- The task after `task_alloc`: every slot empty and no open descriptor. -/
def task0 : task := { t_ofile := fun _ => none, t_nopens := 0 }

/-- Modelled from the spec: `task_alloc` is not part of the sources. The boot
procedure "allocate[s] the single task"; a new task has an empty descriptor table and
an open-count of zero. -/
def task_alloc : M Unit := do
  emit .task_alloc
  fun w => .ok () { w with t := task0 }

/-- The loop of `vfs_init` over the table `vfssw`. -/
def vfssw_init : List String → M Unit
  | [] => pure ()
  | n :: ns => do
    emit (.vs_init n)
    vfssw_init ns

/-- The last statements of `vfs_init`: the console on descriptors 0, 1 and 2. -/
def console_open (K : Consts) (env : Env) : M Unit := do
  let r0 ← «open» K env "/dev/console" K.O_RDWR 0
  if r0 ≠ 0 then printf "failed to open console, error = %d\n"
  let r1 ← dup K 0
  if r1 ≠ 1 then printf "failed to dup console (1)\n"
  let r2 ← dup K 0
  if r2 ≠ 2 then printf "failed to dup console (2)\n"

/-- The statements of `vfs_init` before `unpack_bootfs`. -/
def vfs_init_mount (K : Consts) (env : Env) : M Unit := do
  emit .vnode_init
  task_alloc
  emit .console_init
  vfssw_init env.vfssw
  mount_rootfs K env

/-- `void vfs_init(void)`, on the bootfs records `md`. -/
def vfs_init (K : Consts) (env : Env) (md : List bootfs_metadata) : M Unit := do
  vfs_init_mount K env
  unpack_bootfs K env md
  console_open K env

/-! ## Concrete states and oracles -/

/-- The state before boot: no File Object, no reference, nothing logged. -/
def world0 : World :=
  { t := task0, errno := 0, files := fun _ => none, v_refcnt := fun _ => 0, log := [] }

/-- An oracle under which every call succeeds; the `n`-th call that opens a file
creates the File Object `100 + n` on the vnode `200 + n`, and a read or write
transfers all the bytes asked for. -/
def envOk : Env :=
  { task_conv := fun _ p _ => (0, p),
    sys_open := fun n _ _ _ => (0, 100 + n, 200 + n),
    sys_close := fun _ _ => 0,
    sys_mknod := fun _ _ _ => 0,
    sys_lseek := fun _ _ off _ => (0, off),
    sys_read := fun _ _ c => (0, c),
    sys_write := fun _ _ _ c => (0, c),
    sys_fstat := fun _ _ => (0, []),
    sys_readdir := fun _ _ => (0, []),
    sys_mkdir := fun _ _ _ => 0,
    sys_stat := fun _ _ => (0, []),
    sys_mount := fun _ _ _ _ _ => 0,
    vfssw := ["ramfs", "devfs"] }

/-- A state whose slots are all bound, slot `i` to the File Object `100 + i`. -/
def worldFull : World :=
  { t := { t_ofile := fun i => some (100 + i), t_nopens := 4 },
    errno := 0,
    files := fun q => some { f_vnode := 100 + q, f_count := 1 },
    v_refcnt := fun _ => 1,
    log := [] }

/-- A state with the File Object `100` (on the vnode `200`) bound to slot 0 only. -/
def worldOne : World :=
  { t := { t_ofile := fun i => if i = 0 then some 100 else none, t_nopens := 1 },
    errno := 0,
    files := fun q => if q = 100 then some { f_vnode := 200, f_count := 1 } else none,
    v_refcnt := fun v => if v = 200 then 1 else 0,
    log := [] }

/-- The state after a first `open` on `world0`. -/
def worldA : World := («open» K4 envOk "/a" 0 0 world0).world

/-- The state after a second `open`. -/
def worldAB : World := («open» K4 envOk "/b" 0 0 worldA).world

/-- The state after closing the first descriptor. -/
def worldB : World := (close K4 envOk 0 worldAB).world

/-- The state after a third `open`. -/
def worldBA : World := («open» K4 envOk "/c" 0 0 worldB).world

/-- The state after `open("/dev/console", O_RDWR, 0)` on the new task. -/
def worldConsole : World := («open» K4 envOk "/dev/console" K4.O_RDWR 0 world0).world

/-- The state after a following `dup(0)`. -/
def worldConsoleDup : World := (dup K4 0 worldConsole).world

/-- The state after a following `close(0)`. -/
def worldConsoleClose0 : World := (close K4 envOk 0 worldConsoleDup).world

/-- The state after a following `close(1)`. -/
def worldConsoleClose1 : World := (close K4 envOk 1 worldConsoleClose0).world

/-- The number of slots of `t_ofile` bound to the File Object `fp`. -/
def slots_bound_to (K : Consts) (t : task) (fp : file_t) : Nat :=
  ((List.range K.OPEN_MAX).filter (fun i => t.t_ofile i = some fp)).length

/-- An oracle under which every call succeeds but the mount on `/`, which fails
with the error 5. -/
def envRootMountFails : Env :=
  { envOk with sys_mount := fun _ _ dir _ _ => if dir = "/" then 5 else 0 }

/-- An oracle under which every call succeeds but `sys_mkdir` on `/usr/lib`, which
fails with the error 13. -/
def envMkdirFails : Env :=
  { envOk with sys_mkdir := fun _ path _ => if path = "/usr/lib" then 13 else 0 }

/-- An oracle under which every call succeeds but `sys_open` on `/b`, which fails
with the error 13. -/
def envCreatFails : Env :=
  { envOk with sys_open := fun n path _ _ => if path = "/b" then (13, 0, 0) else (0, 100 + n, 200 + n) }

/-- An oracle under which every call succeeds but `sys_write`, which fails with the
error 5 and transfers nothing. -/
def envWriteFails : Env :=
  { envOk with sys_write := fun _ _ _ _ => (5, 0) }

/-- A bootfs image with the single record of the spec's boot scenario. -/
def bootfsOne : List bootfs_metadata :=
  [{ size := 4, offset := 0, name := "/a/file.bin" }, { size := 0, offset := 0, name := "" }]

/-- A bootfs image with two records. -/
def bootfsTwo : List bootfs_metadata :=
  [{ size := 4, offset := 0, name := "/a" }, { size := 2, offset := 4, name := "/b" },
   { size := 0, offset := 0, name := "" }]

/-- A bootfs image whose record has the largest size a `uint64_t` holds. -/
def bootfsHuge : List bootfs_metadata :=
  [{ size := 2 ^ 64 - 1, offset := 0, name := "/f" }, { size := 0, offset := 0, name := "" }]

/-- The function `m` never ends in `sys_panic`: from every state it returns or ends
in an undefined access. -/
def NoHalt {α : Type} (m : M α) : Prop := ∀ w, (m w).isHalt = false

/-- The function `m` returns from every state. -/
def Returns {α : Type} (m : M α) : Prop := ∀ w, ∃ r w', m w = .ok r w'

/-- The state after the steps of `vfs_init` up to the end of `mount_rootfs`, when
only `sys_mkdir` on `/usr/lib` fails. -/
def worldM1 : World := (vfs_init_mount K4 envMkdirFails world0).world

/-- The state after the first iteration of the first loop of `unpack_bootfs`. -/
def worldM2 : World := (unpack_dirs K4 envMkdirFails ["/usr"] worldM1).world

/-- The state after the failed `mkdir` of `/usr/lib`. -/
def worldM3 : World :=
  (mkdir K4 envMkdirFails "/usr/lib" 0o666
    { worldM2 with log := worldM2.log ++ [.printf "creating %s"] }).world

/-- The state after the steps of `vfs_init` up to the end of `mount_rootfs`, when
only `sys_open` on `/b` fails. -/
def worldF1 : World := (vfs_init_mount K4 envCreatFails world0).world

/-- The state after the first loop of `unpack_bootfs`. -/
def worldF2 : World := (unpack_dirs K4 envCreatFails dirs worldF1).world

/-- The state after the record `/a` of `bootfsTwo` is unpacked. -/
def worldF3 : World :=
  (unpack_records K4 envCreatFails [{ size := 4, offset := 0, name := "/a" }] worldF2).world

/-- The state after the failed `creat` of `/b`. -/
def worldF4 : World :=
  (creat K4 envCreatFails "/b" 0o666
    { worldF3 with log := worldF3.log ++ [.printf "unpacking %s"] }).world

/-- The state after the first loop of `unpack_bootfs` on the state before boot. -/
def worldW1 : World := (unpack_dirs K4 envWriteFails dirs world0).world

/-- The state after the `creat` of the record `/f` of `bootfsHuge`. -/
def worldW2 : World :=
  (creat K4 envWriteFails "/f" 0o666
    { worldW1 with log := worldW1.log ++ [.printf "unpacking %s"] }).world

/-- The invariant of the File Objects: every bound slot refers to a live File
Object, and the share counter of every live File Object is the number of slots bound
to it. -/
def CountsMatch (K : Consts) (w : World) : Prop :=
  (∀ i fp, i < K.OPEN_MAX → w.t.t_ofile i = some fp → ∃ f, w.files fp = some f) ∧
  (∀ fp f, w.files fp = some f → f.f_count = (slots_bound_to K w.t fp : Int))

/-- An oracle under which every call succeeds but a `sys_write` of two bytes, which
transfers one byte only. -/
def envShortWrite : Env :=
  { envOk with sys_write := fun _ _ _ count => if count = 2 then (0, 1) else (0, count) }

/-- The state after the first loop of `unpack_bootfs`, under `envShortWrite`. -/
def worldS2 : World := (unpack_dirs K4 envShortWrite dirs world0).world

/-- The state after the record `/a` of `bootfsTwo` is unpacked. -/
def worldS3 : World :=
  (unpack_records K4 envShortWrite [{ size := 4, offset := 0, name := "/a" }] worldS2).world

/-- The state after the `creat` of the record `/b`. -/
def worldS4 : World :=
  (creat K4 envShortWrite "/b" 0o666
    { worldS3 with log := worldS3.log ++ [.printf "unpacking %s"] }).world

/-- The state after the short `write` to `/b`. -/
def worldS5 : World := (write K4 envShortWrite 0 4 2 worldS4).world

/-- The number of non-empty slots of `t_ofile`. -/
def nonempty_slots (K : Consts) (t : task) : Nat :=
  ((List.range K.OPEN_MAX).filter (fun i => (t.t_ofile i).isSome)).length

/-! ## Running the steps -/

@[simp] theorem bind_run {α β : Type} (m : M α) (f : α → M β) (w : World) :
    (m >>= f) w = match m w with
      | .ok a w1 => f a w1
      | .halt w1 => .halt w1
      | .fault e w1 => .fault e w1 := rfl

@[simp] theorem pure_run {α : Type} (a : α) (w : World) :
    (pure a : M α) w = .ok a w := rfl

@[simp] theorem emit_run (c : Call) (w : World) :
    emit c w = .ok () { w with log := w.log ++ [c] } := rfl

@[simp] theorem callIndex_run (w : World) : callIndex w = .ok w.log.length w := rfl

@[simp] theorem set_errno_run (e : Int) (w : World) :
    set_errno e w = .ok () { w with errno := e } := rfl

@[simp] theorem out_errno_run (e : Int) (w : World) :
    out_errno e w = .ok (-1) { w with errno := e } := rfl

@[simp] theorem get_task_run (w : World) : get_task w = .ok w.t w := rfl

@[simp] theorem nopens_add_run (d : Int) (w : World) :
    nopens_add d w = .ok () { w with t := { w.t with t_nopens := w.t.t_nopens + d } } := rfl

@[simp] theorem printf_run (s : String) (w : World) :
    printf s w = .ok () { w with log := w.log ++ [.printf s] } := rfl

@[simp] theorem perror_run (s : String) (w : World) :
    perror s w = .ok () { w with log := w.log ++ [.perror s] } := rfl

@[simp] theorem sys_panic_run (s : String) (w : World) :
    sys_panic s w = .halt { w with log := w.log ++ [.printf s] } := rfl

theorem ite_run {α : Type} (c : Prop) [Decidable c] (a b : M α) (w : World) :
    (if c then a else b) w = if c then a w else b w := by
  split <;> rfl

/-! ## The slot search -/

theorem firstEmpty_none (a : Nat → Option file_t) (n fd : Nat) :
    firstEmpty a n fd = none ↔ ∀ i, fd ≤ i → i < fd + n → a i ≠ none := by
  induction n generalizing fd with
  | zero =>
    simp only [firstEmpty, true_iff]
    intro i h1 h2
    omega
  | succ n ih =>
    unfold firstEmpty
    by_cases h : a fd = none
    · simp only [h, if_true]
      constructor
      · intro hh
        cases hh
      · intro hh
        exact absurd h (hh fd (Nat.le_refl _) (by omega))
    · simp only [h, if_false, ih]
      constructor
      · intro hh i h1 h2
        by_cases hi : i = fd
        · subst hi
          exact h
        · exact hh i (by omega) (by omega)
      · intro hh i h1 h2
        exact hh i (by omega) (by omega)

theorem firstEmpty_some (a : Nat → Option file_t) (n fd k : Nat) :
    firstEmpty a n fd = some k ↔
      fd ≤ k ∧ k < fd + n ∧ a k = none ∧ ∀ i, fd ≤ i → i < k → a i ≠ none := by
  induction n generalizing fd with
  | zero =>
    simp only [firstEmpty]
    constructor
    · intro hh
      cases hh
    · rintro ⟨h1, h2, _, _⟩
      omega
  | succ n ih =>
    unfold firstEmpty
    by_cases h : a fd = none
    · simp only [h, if_true, Option.some.injEq]
      constructor
      · intro hh
        subst hh
        exact ⟨Nat.le_refl _, by omega, h, fun i h1 h2 => by omega⟩
      · rintro ⟨h1, _, _, h4⟩
        by_contra hne
        exact h4 fd (Nat.le_refl _) (by omega) h
    · simp only [h, if_false, ih]
      constructor
      · rintro ⟨h1, h2, h3, h4⟩
        refine ⟨by omega, by omega, h3, fun i hi1 hi2 => ?_⟩
        by_cases hi : i = fd
        · subst hi
          exact h
        · exact h4 i (by omega) hi2
      · rintro ⟨h1, h2, h3, h4⟩
        have hk : k ≠ fd := by
          intro e
          subst e
          exact h h3
        exact ⟨by omega, by omega, h3, fun i hi1 hi2 => h4 i (by omega) hi2⟩

/-- The slot search fails exactly on a full table. -/
theorem task_newfd_full (K : Consts) (t : task) :
    task_newfd K t = -1 ↔ ∀ i, i < K.OPEN_MAX → t.t_ofile i ≠ none := by
  unfold task_newfd
  cases h : firstEmpty t.t_ofile K.OPEN_MAX 0 with
  | none =>
    simp only [true_iff]
    intro i hi
    exact (firstEmpty_none _ _ _).1 h i (Nat.zero_le _) (by omega)
  | some k =>
    constructor
    · intro hh
      simp only at hh
      omega
    · intro hh
      obtain ⟨_, h2, h3, _⟩ := (firstEmpty_some _ _ _ _).1 h
      exact absurd h3 (hh k (by omega))

/-- The slot search returns the lowest empty slot. -/
theorem task_newfd_lowest (K : Consts) (t : task) (k : Nat) :
    task_newfd K t = (k : Int) ↔
      k < K.OPEN_MAX ∧ t.t_ofile k = none ∧ ∀ i, i < k → t.t_ofile i ≠ none := by
  unfold task_newfd
  cases h : firstEmpty t.t_ofile K.OPEN_MAX 0 with
  | none =>
    simp only
    constructor
    · intro hh
      omega
    · rintro ⟨h1, h2, _⟩
      exact absurd h2 ((firstEmpty_none _ _ _).1 h k (Nat.zero_le _) (by omega))
  | some j =>
    simp only [Nat.cast_inj]
    constructor
    · intro hh
      subst hh
      obtain ⟨_, h2, h3, h4⟩ := (firstEmpty_some _ _ _ _).1 h
      exact ⟨by omega, h3, fun i hi => h4 i (Nat.zero_le _) hi⟩
    · rintro ⟨h1, h2, h3⟩
      have hk : firstEmpty t.t_ofile K.OPEN_MAX 0 = some k :=
        (firstEmpty_some _ _ _ _).2 ⟨Nat.zero_le _, by omega, h2, fun i _ hi => h3 i hi⟩
      rw [h] at hk
      exact Option.some.inj hk

/-- The slot search returns `-1` or an index of the table. -/
theorem task_newfd_cases (K : Consts) (t : task) :
    task_newfd K t = -1 ∨ ∃ k : Nat, task_newfd K t = (k : Int) := by
  unfold task_newfd
  cases firstEmpty t.t_ofile K.OPEN_MAX 0 with
  | none => exact Or.inl rfl
  | some k => exact Or.inr ⟨k, rfl⟩

/-- A table with an empty slot has a lowest empty slot. -/
theorem exists_lowest_empty (K : Consts) (t : task)
    (h : ∃ i, i < K.OPEN_MAX ∧ t.t_ofile i = none) :
    ∃ k : Nat, task_newfd K t = (k : Int) := by
  rcases task_newfd_cases K t with hfull | hk
  · obtain ⟨i, hi, he⟩ := h
    exact absurd he ((task_newfd_full K t).1 hfull i hi)
  · exact hk

/-! ## What `open` and `close` do to the task -/

/-- A successful path translation followed by a successful VFS open binds the lowest
empty slot; this is the state `open` then returns in. -/
theorem open_run_success (K : Consts) (env : Env) (w : World) (pathname : String)
    (flags mode : Int) (k : Nat) (hk : task_newfd K w.t = (k : Int))
    (hconv : (env.task_conv w.log.length pathname (open_acc K flags)).1 = 0)
    (hopen : (env.sys_open (w.log.length + 1)
      (env.task_conv w.log.length pathname (open_acc K flags)).2 flags mode).1 = 0) :
    «open» K env pathname flags mode w = .ok (k : Int)
      { t := { t_ofile := setSlot w.t.t_ofile k (some (env.sys_open (w.log.length + 1)
                  (env.task_conv w.log.length pathname (open_acc K flags)).2 flags mode).2.1),
               t_nopens := w.t.t_nopens + 1 },
        errno := w.errno,
        files := setFile w.files (env.sys_open (w.log.length + 1)
                  (env.task_conv w.log.length pathname (open_acc K flags)).2 flags mode).2.1
                  (some { f_vnode := (env.sys_open (w.log.length + 1)
                    (env.task_conv w.log.length pathname (open_acc K flags)).2 flags mode).2.2,
                          f_count := 1 }),
        v_refcnt := addRef w.v_refcnt (env.sys_open (w.log.length + 1)
                  (env.task_conv w.log.length pathname (open_acc K flags)).2 flags mode).2.2 1,
        log := w.log ++ [.task_conv pathname (open_acc K flags),
                         .sys_open (env.task_conv w.log.length pathname (open_acc K flags)).2
                            flags mode] } := by
  have hne : ¬ ((k : Int) = -1) := by omega
  have hlt : k < K.OPEN_MAX := ((task_newfd_lowest K w.t k).1 hk).1
  simp [«open», hk, hne, task_conv, sys_open, ite_run, file_create, file_store, node_ref,
    ofile_set, hconv, hopen, hlt]

/-- What `open` leaves of the task: nothing changes when it fails, and on success
the lowest empty slot is bound and `t_nopens` is one more. -/
theorem open_task (K : Consts) (env : Env) (w w' : World) (pathname : String)
    (flags mode r : Int) (h : «open» K env pathname flags mode w = .ok r w') :
    (r = -1 ∧ w'.t = w.t) ∨
    (∃ (k : Nat) (fp : file_t), task_newfd K w.t = (k : Int) ∧ r = (k : Int) ∧
      w'.t.t_ofile = setSlot w.t.t_ofile k (some fp) ∧
      w'.t.t_nopens = w.t.t_nopens + 1) := by
  rcases task_newfd_cases K w.t with hfull | ⟨k, hk⟩
  · simp [«open», hfull] at h
    obtain ⟨h1, h2⟩ := h
    subst h1 h2
    exact Or.inl ⟨rfl, rfl⟩
  · by_cases hconv : (env.task_conv w.log.length pathname (open_acc K flags)).1 = 0
    · by_cases hopen : (env.sys_open (w.log.length + 1)
        (env.task_conv w.log.length pathname (open_acc K flags)).2 flags mode).1 = 0
      · rw [open_run_success K env w pathname flags mode k hk hconv hopen] at h
        simp only [Res.ok.injEq] at h
        obtain ⟨h1, h2⟩ := h
        subst h1 h2
        exact Or.inr ⟨k, _, hk, rfl, rfl, rfl⟩
      · have hne : ¬ ((k : Int) = -1) := by omega
        simp [«open», hk, hne, task_conv, sys_open, ite_run, hconv, hopen] at h
        obtain ⟨h1, h2⟩ := h
        subst h1 h2
        exact Or.inl ⟨rfl, rfl⟩
    · have hne : ¬ ((k : Int) = -1) := by omega
      simp [«open», hk, hne, task_conv, ite_run, hconv] at h
      obtain ⟨h1, h2⟩ := h
      subst h1 h2
      exact Or.inl ⟨rfl, rfl⟩

/-- A `close` that returns 0 has emptied the slot of an index of the table. -/
theorem close_task (K : Consts) (env : Env) (w w' : World) (fd : Int)
    (h : close K env fd w = .ok 0 w') :
    0 ≤ fd ∧ fd < K.OPEN_MAX ∧ w'.t.t_ofile = setSlot w.t.t_ofile fd.toNat none ∧
      w'.t.t_nopens = w.t.t_nopens - 1 := by
  by_cases hge : fd ≥ (K.OPEN_MAX : Int)
  · simp [close, hge] at h
  · by_cases hr : 0 ≤ fd ∧ fd < (K.OPEN_MAX : Int)
    · cases hs : w.t.t_ofile fd.toNat with
      | none => simp [close, hge, ofile_get, hr, hs] at h
      | some fp =>
        by_cases he : env.sys_close w.log.length fp = 0
        · cases hf : w.files fp with
          | none =>
            simp [close, hge, ofile_get, hr, hs, sys_close, he, deref, hf] at h
          | some f =>
            by_cases hc : f.f_count - 1 = 0
            · simp [close, hge, ofile_get, hr, hs, sys_close, he, deref, hf, hc, file_destroy,
                node_ref, ofile_set] at h
              subst h
              exact ⟨hr.1, hr.2, rfl, rfl⟩
            · simp [close, hge, ofile_get, hr, hs, sys_close, he, deref, hf, hc, file_store,
                ofile_set] at h
              subst h
              exact ⟨hr.1, hr.2, rfl, rfl⟩
        · simp [close, hge, ofile_get, hr, hs, sys_close, he] at h
    · simp [close, hge, ofile_get, hr] at h
/-- The state `dup` returns in when `oldfd` resolves to a live File Object and the
slot search finds slot `n`. -/
theorem dup_run_success (K : Consts) (w : World) (oldfd : Int) (fp : file_t) (f : file)
    (n : Nat) (hgp : task_getfp K w.t oldfd = some fp) (hf : w.files fp = some f)
    (hn : task_newfd K w.t = (n : Int)) :
    dup K oldfd w = .ok (n : Int)
      { t := { t_ofile := setSlot w.t.t_ofile n (some fp), t_nopens := w.t.t_nopens },
        errno := w.errno,
        files := setFile w.files fp (some { f with f_count := f.f_count + 1 }),
        v_refcnt := addRef w.v_refcnt f.f_vnode 1,
        log := w.log ++ [.vref f.f_vnode] } := by
  have hne : ¬ ((n : Int) = -1) := by omega
  have hn1 : n < K.OPEN_MAX := ((task_newfd_lowest K w.t n).1 hn).1
  simp [dup, hgp, hn, hne, ofile_set, hn1, deref, hf, vref, node_ref, f_count_incr,
    file_store]

/-! ## The boot procedure, step by step -/

theorem noHalt_pure {α : Type} (a : α) : NoHalt (pure a : M α) := fun _ => rfl

theorem noHalt_bind {α β : Type} {m : M α} {f : α → M β} (hm : NoHalt m)
    (hf : ∀ a, NoHalt (f a)) : NoHalt (m >>= f) := by
  intro w
  have h := hm w
  simp only [bind_run]
  cases hmw : m w with
  | ok a w1 => exact hf a w1
  | halt w1 => rw [hmw] at h; cases h
  | fault e w1 => rfl

theorem noHalt_ite {α : Type} (c : Prop) [Decidable c] {a b : M α} (ha : NoHalt a)
    (hb : NoHalt b) : NoHalt (if c then a else b) := by
  split
  · exact ha
  · exact hb

theorem noHalt_of_returns {α : Type} {m : M α} (h : ∀ w, ∃ r w', m w = .ok r w') :
    NoHalt m := by
  intro w
  obtain ⟨r, w', e⟩ := h w
  rw [e]
  rfl

/-- `open` always returns. -/
theorem open_returns (K : Consts) (env : Env) (pathname : String) (flags mode : Int)
    (w : World) : ∃ r w', «open» K env pathname flags mode w = .ok r w' := by
  rcases task_newfd_cases K w.t with hfull | ⟨k, hk⟩
  · simp [«open», hfull]
  · have hne : ¬ ((k : Int) = -1) := by omega
    have hlt : k < K.OPEN_MAX := ((task_newfd_lowest K w.t k).1 hk).1
    by_cases hconv : (env.task_conv w.log.length pathname (open_acc K flags)).1 = 0
    · by_cases hopen : (env.sys_open (w.log.length + 1)
        (env.task_conv w.log.length pathname (open_acc K flags)).2 flags mode).1 = 0
      · exact ⟨_, _, open_run_success K env w pathname flags mode k hk hconv hopen⟩
      · simp [«open», hk, hne, task_conv, sys_open, ite_run, hconv, hopen]
    · simp [«open», hk, hne, task_conv, ite_run, hconv]

/-- `mkdir` always returns. -/
theorem mkdir_returns (K : Consts) (env : Env) (pathname : String) (mode : Int)
    (w : World) : ∃ r w', mkdir K env pathname mode w = .ok r w' := by
  by_cases hconv : (env.task_conv w.log.length pathname K.VWRITE).1 = 0
  · by_cases hmk : env.sys_mkdir (w.log.length + 1)
        (env.task_conv w.log.length pathname K.VWRITE).2 mode = 0
    · simp [mkdir, task_conv, sys_mkdir, hconv, hmk]
    · simp [mkdir, task_conv, sys_mkdir, hconv, hmk]
  · simp [mkdir, task_conv, hconv]

/-- `dup` returns or ends in an undefined access; it never halts. -/
theorem dup_noHalt (K : Consts) (oldfd : Int) : NoHalt (dup K oldfd) := by
  intro w
  cases hgp : task_getfp K w.t oldfd with
  | none => simp [dup, hgp, Res.isHalt]
  | some fp =>
    rcases task_newfd_cases K w.t with hfull | ⟨n, hn⟩
    · simp [dup, hgp, hfull, Res.isHalt]
    · cases hf : w.files fp with
      | none =>
        have hne : ¬ ((n : Int) = -1) := by omega
        have hn1 : n < K.OPEN_MAX := ((task_newfd_lowest K w.t n).1 hn).1
        simp [dup, hgp, hn, hne, ofile_set, hn1, deref, hf, Res.isHalt]
      | some f =>
        rw [dup_run_success K w oldfd fp f n hgp hf hn]
        rfl

theorem returns_pure {α : Type} (a : α) : Returns (pure a : M α) := fun w => ⟨a, w, rfl⟩

theorem returns_bind {α β : Type} {m : M α} {f : α → M β} (hm : Returns m)
    (hf : ∀ a, Returns (f a)) : Returns (m >>= f) := by
  intro w
  obtain ⟨a, w1, e⟩ := hm w
  obtain ⟨b, w2, e2⟩ := hf a w1
  exact ⟨b, w2, by simp only [bind_run, e, e2]⟩

theorem returns_ite {α : Type} (c : Prop) [Decidable c] {a b : M α} (ha : Returns a)
    (hb : Returns b) : Returns (if c then a else b) := by
  split
  · exact ha
  · exact hb

theorem returns_emit (c : Call) : Returns (emit c) := fun _ => ⟨_, _, rfl⟩

theorem returns_printf (s : String) : Returns (printf s) := fun _ => ⟨_, _, rfl⟩

theorem returns_sys_mount (env : Env) (dev dir fsname : String) (flags : Int) :
    Returns (sys_mount env dev dir fsname flags) := fun _ => ⟨_, _, rfl⟩

theorem returns_task_alloc : Returns task_alloc := fun _ => ⟨_, _, rfl⟩

theorem returns_vfssw_init (l : List String) : Returns (vfssw_init l) := by
  induction l with
  | nil => exact returns_pure ()
  | cons n ns ih =>
    unfold vfssw_init
    exact returns_bind (returns_emit _) (fun _ => ih)

theorem returns_mount_rootfs (K : Consts) (env : Env) : Returns (mount_rootfs K env) := by
  unfold mount_rootfs
  repeat (first
    | exact returns_pure _
    | exact returns_printf _
    | exact returns_sys_mount _ _ _ _ _
    | exact mkdir_returns _ _ _ _
    | apply returns_ite
    | apply returns_bind
    | intro _
    | dsimp only)

/-- The steps of `vfs_init` up to the end of `mount_rootfs` always return: no result of
a mount or of the `mkdir` of `/dev` ends the boot. -/
theorem returns_vfs_init_mount (K : Consts) (env : Env) : Returns (vfs_init_mount K env) := by
  unfold vfs_init_mount
  repeat (first
    | exact returns_emit _
    | exact returns_task_alloc
    | exact returns_vfssw_init _
    | exact returns_mount_rootfs _ _
    | apply returns_bind
    | intro _)

/-- The console steps of `vfs_init` never halt, whatever `open` and `dup` return. -/
theorem noHalt_console_open (K : Consts) (env : Env) : NoHalt (console_open K env) := by
  unfold console_open
  repeat (first
    | exact noHalt_pure _
    | exact noHalt_of_returns (returns_printf _)
    | exact noHalt_of_returns (open_returns _ _ _ _ _)
    | exact dup_noHalt _ _
    | apply noHalt_ite
    | apply noHalt_bind
    | intro _
    | dsimp only)

/-- The first loop of `unpack_bootfs` over a list is the loop over its first part
followed by the loop over the rest. -/
theorem unpack_dirs_append (K : Consts) (env : Env) (pre post : List String) (w : World) :
    unpack_dirs K env (pre ++ post) w =
      match unpack_dirs K env pre w with
      | .ok _ w1 => unpack_dirs K env post w1
      | .halt w1 => .halt w1
      | .fault e w1 => .fault e w1 := by
  induction pre generalizing w with
  | nil => rfl
  | cons d ds ih =>
    simp only [List.cons_append, unpack_dirs, bind_run, printf_run]
    cases mkdir K env d 438 { w with log := w.log ++ [.printf "creating %s"] } with
    | ok r w1 =>
      simp only
      by_cases hr : r < 0
      · simp [hr]
      · simp [hr, ih]
    | halt w1 => rfl
    | fault e w1 => rfl

/-- The second loop of `unpack_bootfs` runs the body on the records before the
terminator and goes on with the rest. -/
theorem unpack_files_append (K : Consts) (env : Env) (pre post : List bootfs_metadata)
    (w : World) (hpre : ∀ x, x ∈ pre → x.name ≠ "") :
    unpack_files K env (pre ++ post) w =
      match unpack_records K env pre w with
      | .ok _ w1 => unpack_files K env post w1
      | .halt w1 => .halt w1
      | .fault e w1 => .fault e w1 := by
  induction pre generalizing w with
  | nil => rfl
  | cons m ms ih =>
    have hm : m.name ≠ "" := hpre m (List.mem_cons_self _ _)
    have hms : ∀ x, x ∈ ms → x.name ≠ "" := fun x hx => hpre x (List.mem_cons_of_mem _ hx)
    simp only [List.cons_append, unpack_files, unpack_records, hm, if_false, bind_run]
    cases unpack_file K env m w with
    | ok r w1 => exact ih w1 hms
    | halt w1 => rfl
    | fault e w1 => rfl

/-- The boot procedure is the steps up to `mount_rootfs`, then `unpack_bootfs`, then
the console steps; a halt or an undefined access in `unpack_bootfs` ends it. -/
theorem vfs_init_run (K : Consts) (env : Env) (md : List bootfs_metadata) (w0 w1 : World)
    (h1 : vfs_init_mount K env w0 = .ok () w1) :
    vfs_init K env md w0 =
      match unpack_bootfs K env md w1 with
      | .ok _ w2 => console_open K env w2
      | .halt w' => .halt w'
      | .fault e w' => .fault e w' := by
  unfold vfs_init
  simp only [bind_run, h1]
  cases unpack_bootfs K env md w1 <;> rfl

/-- A run that returned `r` is the run that returns `r` in its final state. -/
theorem run_eq_of_ret {α : Type} {x : Res α} {r : α} (h : x.ret? = some r) :
    x = .ok r x.world := by
  cases x with
  | ok a w =>
    simp only [Res.ret?, Option.some.injEq] at h
    subst h
    rfl
  | halt w => cases h
  | fault e w => cases h

/-! ## `dup2` on two different descriptors -/

theorem slots_bound_to_succ (N : Nat) (a : Nat → Option file_t) (q : file_t) :
    ((List.range (N + 1)).filter (fun i => a i = some q)).length =
      ((List.range N).filter (fun i => a i = some q)).length +
        (if a N = some q then 1 else 0) := by
  rw [List.range_succ, List.filter_append, List.length_append]
  by_cases h : a N = some q
  · simp [h]
  · simp [h]

/-- A write to a slot at or above `N` does not change the count over the first `N`
slots. -/
theorem count_setSlot_above (N n : Nat) (a : Nat → Option file_t) (v : Option file_t)
    (q : file_t) (h : N ≤ n) :
    ((List.range N).filter (fun i => setSlot a n v i = some q)).length =
      ((List.range N).filter (fun i => a i = some q)).length := by
  induction N with
  | zero => rfl
  | succ N ih =>
    rw [slots_bound_to_succ, slots_bound_to_succ, ih (by omega)]
    have hN : setSlot a n v N = a N := by
      have hne : N ≠ n := by omega
      simp [setSlot, hne]
    rw [hN]

/-- The count of the slots bound to `q` after a write to the slot `n` of the table. -/
theorem count_setSlot (N n : Nat) (a : Nat → Option file_t) (v : Option file_t)
    (q : file_t) (h : n < N) :
    ((List.range N).filter (fun i => setSlot a n v i = some q)).length +
        (if a n = some q then 1 else 0) =
      ((List.range N).filter (fun i => a i = some q)).length +
        (if v = some q then 1 else 0) := by
  induction N with
  | zero => omega
  | succ N ih =>
    rw [slots_bound_to_succ, slots_bound_to_succ]
    by_cases hn : n = N
    · subst hn
      rw [count_setSlot_above n n a v q (Nat.le_refl _)]
      have hN : setSlot a n v n = v := by simp [setSlot]
      rw [hN]
      omega
    · have hlt : n < N := by omega
      have := ih hlt
      have hN : setSlot a n v N = a N := by
        have hne : N ≠ n := by omega
        simp [setSlot, hne]
      rw [hN]
      omega

/-- A bound slot of the table is counted. -/
theorem count_pos_of_bound (N i : Nat) (a : Nat → Option file_t) (q : file_t)
    (hi : i < N) (h : a i = some q) :
    1 ≤ ((List.range N).filter (fun i => a i = some q)).length := by
  induction N with
  | zero => omega
  | succ N ih =>
    rw [slots_bound_to_succ]
    by_cases hn : i = N
    · subst hn
      simp [h]
    · have := ih (by omega)
      omega

/-- `dup2` on two different bound descriptors, with a `sys_close` that succeeds:
the object at `newfd` is closed once, `newfd` is bound to the object of `oldfd`, and
the share counters still match the slots. -/
theorem dup2_distinct_keeps_counts (K : Consts) (env : Env) (w : World) (oldfd newfd : Int)
    (fp org : file_t) (hinv : CountsMatch K w)
    (ho0 : 0 ≤ oldfd) (ho1 : oldfd < K.OPEN_MAX) (hn0 : 0 ≤ newfd) (hn1 : newfd < K.OPEN_MAX)
    (hne : oldfd ≠ newfd)
    (hso : w.t.t_ofile oldfd.toNat = some fp) (hsn : w.t.t_ofile newfd.toNat = some org)
    (hcl : env.sys_close w.log.length org = 0) :
    ∃ (w' : World) (vn : Nat),
      dup2 K env oldfd newfd w = .ok newfd w' ∧
      w'.t.t_ofile newfd.toNat = some fp ∧
      (∀ i, i ≠ newfd.toNat → w'.t.t_ofile i = w.t.t_ofile i) ∧
      w'.log = w.log ++ [.sys_close org, .vref vn] ∧
      CountsMatch K w' := by
  obtain ⟨hlive, hcount⟩ := hinv
  have hoN : oldfd.toNat < K.OPEN_MAX := by omega
  have hnN : newfd.toNat < K.OPEN_MAX := by omega
  have hneN : oldfd.toNat ≠ newfd.toNat := by omega
  obtain ⟨f, hf⟩ := hlive _ fp hoN hso
  obtain ⟨g, hg⟩ := hlive _ org hnN hsn
  have hge : ¬ (oldfd ≥ (K.OPEN_MAX : Int) ∨ newfd ≥ (K.OPEN_MAX : Int)) := by omega
  have hcnt : ∀ q, ((slots_bound_to K
        { t_ofile := setSlot w.t.t_ofile newfd.toNat (some fp), t_nopens := w.t.t_nopens } q : Nat) : Int)
      + (if org = q then 1 else 0) = (slots_bound_to K w.t q : Int) + (if fp = q then 1 else 0) := by
    intro q
    have h := count_setSlot K.OPEN_MAX newfd.toNat w.t.t_ofile (some fp) q hnN
    simp only [hsn, Option.some.injEq] at h
    unfold slots_bound_to
    by_cases h1 : org = q <;> by_cases h2 : fp = q <;> simp [h1, h2] at h ⊢ <;> omega
  by_cases hof : org = fp
  · subst hof
    have h2 : (2 : Int) ≤ f.f_count := by
      rw [hcount org f hf]
      have h := count_setSlot K.OPEN_MAX newfd.toNat w.t.t_ofile none org hnN
      have hp := count_pos_of_bound K.OPEN_MAX oldfd.toNat
        (setSlot w.t.t_ofile newfd.toNat none) org hoN (by simp [setSlot, hneN, hso])
      simp only [hsn, if_true] at h
      unfold slots_bound_to
      have h' : 2 ≤ ((List.range K.OPEN_MAX).filter
          (fun i => w.t.t_ofile i = some org)).length := by
        simp at h
        omega
      exact_mod_cast h'
    have hc : ¬ (f.f_count - 1 = 0) := by omega
    have hrun : dup2 K env oldfd newfd w = .ok newfd
        { t := { t_ofile := setSlot w.t.t_ofile newfd.toNat (some org),
                 t_nopens := w.t.t_nopens },
          errno := w.errno,
          files := setFile (setFile w.files org (some { f with f_count := f.f_count - 1 })) org
            (some { f_vnode := f.f_vnode, f_count := f.f_count - 1 + 1 }),
          v_refcnt := addRef w.v_refcnt f.f_vnode 1,
          log := w.log ++ [.sys_close org, .vref f.f_vnode] } := by
      simp [dup2, hge, ofile_get, ho0, ho1, hn0, hn1, hso, hsn, sys_close, hcl, deref, hf, hc,
        file_store, ofile_set, vref, node_ref, f_count_incr, setFile]
    refine ⟨_, f.f_vnode, hrun, by simp [setSlot], ?_, rfl, ?_, ?_⟩
    · intro i hi
      simp [setSlot, hi]
    · intro i q hi hq
      by_cases hin : i = newfd.toNat
      · simp [setSlot, hin] at hq
        subst hq
        simp [setFile]
      · simp [setSlot, hin] at hq
        obtain ⟨f0, hf0⟩ := hlive i q hi hq
        by_cases hq' : q = org
        · simp [setFile, hq']
        · simp [setFile, hq', hf0]
    · intro q f' hq
      have hc1 := hcnt q
      by_cases hq' : q = org
      · subst hq'
        simp [setFile] at hq
        subst hq
        have hc2 := hcount q f hf
        simp only [if_true] at hc1
        simp only
        omega
      · simp [setFile, hq'] at hq
        have hc2 := hcount q f' hq
        have hq'' : ¬ (org = q) := fun e => hq' e.symm
        simp only [hq'', if_false] at hc1
        simp only
        omega
  · have hfo : ¬ (fp = org) := fun e => hof e.symm
    by_cases hc : g.f_count - 1 = 0
    · have hrun : dup2 K env oldfd newfd w = .ok newfd
          { t := { t_ofile := setSlot w.t.t_ofile newfd.toNat (some fp),
                   t_nopens := w.t.t_nopens },
            errno := w.errno,
            files := setFile (setFile w.files org none) fp
              (some { f_vnode := f.f_vnode, f_count := f.f_count + 1 }),
            v_refcnt := addRef (addRef w.v_refcnt g.f_vnode (-1)) f.f_vnode 1,
            log := w.log ++ [.sys_close org, .vref f.f_vnode] } := by
        simp [dup2, hge, ofile_get, ho0, ho1, hn0, hn1, hso, hsn, sys_close, hcl, deref, hf, hg,
          hc, file_destroy, file_store, ofile_set, vref, node_ref, f_count_incr, setFile, hfo]
      refine ⟨_, f.f_vnode, hrun, by simp [setSlot], ?_, rfl, ?_, ?_⟩
      · intro i hi
        simp [setSlot, hi]
      · intro i q hi hq
        by_cases hin : i = newfd.toNat
        · simp [setSlot, hin] at hq
          subst hq
          simp [setFile]
        · simp [setSlot, hin] at hq
          obtain ⟨f0, hf0⟩ := hlive i q hi hq
          by_cases hq' : q = fp
          · simp [setFile, hq']
          · by_cases hq2 : q = org
            · -- the closed object had a single slot, `newfd`
              exfalso
              subst hq2
              have hc2 := hcount q g hg
              have h := count_setSlot K.OPEN_MAX newfd.toNat w.t.t_ofile none q hnN
              have hp := count_pos_of_bound K.OPEN_MAX i
                (setSlot w.t.t_ofile newfd.toNat none) q hi (by simp [setSlot, hin, hq])
              simp only [hsn, if_true] at h
              unfold slots_bound_to at hc2
              simp at h
              omega
            · simp [setFile, hq', hq2, hf0]
      · intro q f' hq
        have hc1 := hcnt q
        by_cases hq' : q = fp
        · subst hq'
          simp [setFile] at hq
          subst hq
          have hc2 := hcount q f hf
          have hq'' : ¬ (org = q) := hof
          simp only [hq'', if_false, if_true] at hc1
          simp only
          omega
        · by_cases hq2 : q = org
          · subst hq2
            simp [setFile, hq'] at hq
          · simp [setFile, hq', hq2] at hq
            have hc2 := hcount q f' hq
            have h1 : ¬ (org = q) := fun e => hq2 e.symm
            have h2 : ¬ (fp = q) := fun e => hq' e.symm
            simp only [h1, h2, if_false] at hc1
            simp only
            omega
    · have hrun : dup2 K env oldfd newfd w = .ok newfd
          { t := { t_ofile := setSlot w.t.t_ofile newfd.toNat (some fp),
                   t_nopens := w.t.t_nopens },
            errno := w.errno,
            files := setFile (setFile w.files org
                (some { f_vnode := g.f_vnode, f_count := g.f_count - 1 })) fp
              (some { f_vnode := f.f_vnode, f_count := f.f_count + 1 }),
            v_refcnt := addRef w.v_refcnt f.f_vnode 1,
            log := w.log ++ [.sys_close org, .vref f.f_vnode] } := by
        simp [dup2, hge, ofile_get, ho0, ho1, hn0, hn1, hso, hsn, sys_close, hcl, deref, hf, hg,
          hc, file_store, ofile_set, vref, node_ref, f_count_incr, setFile, hfo]
      refine ⟨_, f.f_vnode, hrun, by simp [setSlot], ?_, rfl, ?_, ?_⟩
      · intro i hi
        simp [setSlot, hi]
      · intro i q hi hq
        by_cases hin : i = newfd.toNat
        · simp [setSlot, hin] at hq
          subst hq
          simp [setFile]
        · simp [setSlot, hin] at hq
          obtain ⟨f0, hf0⟩ := hlive i q hi hq
          by_cases hq' : q = fp
          · simp [setFile, hq']
          · by_cases hq2 : q = org
            · simp [setFile, hq', hq2, hof]
            · simp [setFile, hq', hq2, hf0]
      · intro q f' hq
        have hc1 := hcnt q
        by_cases hq' : q = fp
        · subst hq'
          simp [setFile] at hq
          subst hq
          have hc2 := hcount q f hf
          have hq'' : ¬ (org = q) := hof
          simp only [hq'', if_false, if_true] at hc1
          simp only
          omega
        · by_cases hq2 : q = org
          · subst hq2
            simp [setFile, hq'] at hq
            subst hq
            have hc2 := hcount q g hg
            simp only [hfo, if_false, if_true] at hc1
            simp only
            omega
          · simp [setFile, hq', hq2] at hq
            have hc2 := hcount q f' hq
            have h1 : ¬ (org = q) := fun e => hq2 e.symm
            have h2 : ¬ (fp = q) := fun e => hq' e.symm
            simp only [h1, h2, if_false] at hc1
            simp only
            omega

/-- The state `worldOne` satisfies the invariant of the File Objects. -/
theorem countsMatch_worldOne : CountsMatch K4 worldOne := by
  constructor
  · intro i fp hi h
    by_cases h0 : i = 0
    · subst h0
      simp only [worldOne, if_true, Option.some.injEq] at h
      subst h
      exact ⟨_, rfl⟩
    · simp [worldOne, h0] at h
  · intro fp f h
    by_cases h0 : fp = 100
    · subst h0
      simp only [worldOne, if_true, Option.some.injEq] at h
      subst h
      decide
    · simp [worldOne, h0] at h

/-- The test `ret != md[i].size` is exact for the sizes below `2 ^ 64 - 2 ^ 31`: it
holds whenever `write` returned `-1` or a byte count of at most the size, other than
the size. -/
theorem ret_ne_size_exact (r : Int) (size : Nat) (hsize : size < 2 ^ 64 - 2 ^ 31)
    (hr : r = -1 ∨ (0 ≤ r ∧ r ≤ (size : Int))) (hne : r ≠ (size : Int)) :
    ret_ne_size r size = true := by
  unfold ret_ne_size wrapU wrapS
  simp only [decide_eq_true_eq]
  norm_num at hsize ⊢
  omega

/-- For every size from `2 ^ 64 - 2 ^ 31` on, the test `ret != md[i].size` misses a
short write: the byte count `size % 2 ^ 32` is less than the size and passes for it. -/
theorem ret_ne_size_misses (size : Nat) (h1 : 2 ^ 64 - 2 ^ 31 ≤ size) (h2 : size < 2 ^ 64) :
    size % 2 ^ 32 < size ∧ ret_ne_size ((size % 2 ^ 32 : Nat) : Int) size = false := by
  unfold ret_ne_size wrapU wrapS
  simp only [ne_eq, decide_eq_false_iff_not, not_not]
  norm_num at h1 h2 ⊢
  omega

/-! ## Claims -/

/-- C1: on a task whose `OPEN_MAX` slots are all bound, `open` returns `-1` and the
state after the call is the state before it with `errno` set to `EMFILE`: no slot and
not `t_nopens` has changed, and the log holds no new call (neither the path
translation nor the VFS open was made). -/
theorem open_full_table_emfile (K : Consts) (env : Env) (w : World)
    (pathname : String) (flags mode : Int)
    (hfull : ∀ i, i < K.OPEN_MAX → w.t.t_ofile i ≠ none) :
    «open» K env pathname flags mode w = .ok (-1) { w with errno := K.EMFILE } := by
  have h := (task_newfd_full K w.t).2 hfull
  simp [«open», h]

/-- Instance for C1: `open` on a task whose four slots are all bound. -/
theorem open_full_table_emfile_witness :
    (∀ i, i < K4.OPEN_MAX → worldFull.t.t_ofile i ≠ none) ∧
    «open» K4 envOk "/etc/hosts" 0 0 worldFull
      = .ok (-1) { worldFull with errno := K4.EMFILE } :=
  ⟨by decide, open_full_table_emfile K4 envOk worldFull "/etc/hosts" 0 0 (by decide)⟩

/-- C3: `close(-1)` passes the only range test of `close` (`fd >= OPEN_MAX`) and
then reads `t->t_ofile[-1]`, a slot outside the table, in every state: the call does
not return `-1` with `EBADF`. The same holds for every negative `fd`. For the other
descriptors of the claim (`fd >= OPEN_MAX`, or an empty slot of the table) `close`
does return `-1` and changes nothing but `errno`, set to `EBADF`. -/
theorem close_negative_fd_out_of_bounds (K : Consts) (env : Env) (w : World) :
    close K env (-1) w = .fault (.out_of_bounds (-1)) w ∧
    (∀ fd : Int, fd < 0 → close K env fd w = .fault (.out_of_bounds fd) w) ∧
    (∀ fd : Int, (fd ≥ K.OPEN_MAX ∨ (0 ≤ fd ∧ w.t.t_ofile fd.toNat = none)) →
      close K env fd w = .ok (-1) { w with errno := K.EBADF }) := by
  have hneg : ∀ fd : Int, fd < 0 → close K env fd w = .fault (.out_of_bounds fd) w := by
    intro fd hfd
    have h : ¬ (fd ≥ (K.OPEN_MAX : Int)) := by omega
    have h2 : ¬ (0 ≤ fd) := by omega
    simp [close, h, ofile_get, h2]
  refine ⟨hneg (-1) (by omega), hneg, ?_⟩
  intro fd hfd
  by_cases hge : fd ≥ (K.OPEN_MAX : Int)
  · simp [close, hge]
  · rcases hfd with h | ⟨h0, hs⟩
    · exact absurd h hge
    · have hr : 0 ≤ fd ∧ fd < (K.OPEN_MAX : Int) := ⟨h0, by omega⟩
      simp [close, hge, ofile_get, hr, hs]

/-- Instances for C3: `close(-3)`, `close(9)` and `close(2)` on the new task with four
slots. -/
theorem close_negative_fd_out_of_bounds_witness :
    ((-3 : Int) < 0 ∧ close K4 envOk (-3) world0 = .fault (.out_of_bounds (-3)) world0) ∧
    (((9 : Int) ≥ K4.OPEN_MAX ∨ ((0 : Int) ≤ 9 ∧ world0.t.t_ofile (9 : Int).toNat = none)) ∧
      close K4 envOk 9 world0 = .ok (-1) { world0 with errno := K4.EBADF }) ∧
    (((2 : Int) ≥ K4.OPEN_MAX ∨ ((0 : Int) ≤ 2 ∧ world0.t.t_ofile (2 : Int).toNat = none)) ∧
      close K4 envOk 2 world0 = .ok (-1) { world0 with errno := K4.EBADF }) :=
  ⟨⟨by decide, (close_negative_fd_out_of_bounds K4 envOk world0).2.1 (-3) (by decide)⟩,
   ⟨by decide, (close_negative_fd_out_of_bounds K4 envOk world0).2.2 9 (by decide)⟩,
   ⟨by decide, (close_negative_fd_out_of_bounds K4 envOk world0).2.2 2 (by decide)⟩⟩

/-- C7: for a version other than 1, `__fxstat` and `__xstat` return `-1` without any call
and without touching the buffer, but `errno` does not keep the value `ENOSYS` stored
on entry: the label `out_errno` overwrites it with the local `error`, which was never
assigned and holds the indeterminate value `error0`. -/
theorem xstat_bad_version_errno (K : Consts) (env : Env) (error0 ver fd : Int)
    (pathname : String) (st : stat) (w : World) (hver : ver ≠ 1) :
    __fxstat K env error0 ver fd st w = .ok (-1, st) { w with errno := error0 } ∧
    __xstat K env error0 ver pathname st w = .ok (-1, st) { w with errno := error0 } := by
  constructor
  · simp [__fxstat, hver]
  · simp [__xstat, hver]

/-- Instance for C7: version 2, with the local `error` holding 0, which is not `ENOSYS`. -/
theorem xstat_bad_version_errno_witness :
    (2 : Int) ≠ 1 ∧ (0 : Int) ≠ K4.ENOSYS ∧
    (__fxstat K4 envOk 0 2 0 [] world0 = .ok (-1, []) { world0 with errno := 0 } ∧
     __xstat K4 envOk 0 2 "/etc/hosts" [] world0
       = .ok (-1, []) { world0 with errno := 0 }) :=
  ⟨by decide, by decide,
    xstat_bad_version_errno K4 envOk 0 2 0 "/etc/hosts" [] world0 (by decide)⟩

/-- C8: for a descriptor that `task_getfp` does not resolve, `ll_readdir` returns `-1`
without a call and without writing the entry, but sets `errno` to `-EBADF`, while
`read`, `write`, `lseek`, `__fxstat` and `dup` set it to `EBADF`. -/
theorem ll_readdir_invalid_fd_errno (K : Consts) (env : Env) (fd : Int) (d : dirent)
    (count buf : Nat) (offset whence : Int) (st : stat) (error0 : Int) (w : World)
    (hfd : task_getfp K w.t fd = none) :
    ll_readdir K env fd d w = .ok (-1, d) { w with errno := -K.EBADF } ∧
    read K env fd count w = .ok (-1) { w with errno := K.EBADF } ∧
    write K env fd buf count w = .ok (-1) { w with errno := K.EBADF } ∧
    lseek K env fd offset whence w = .ok (-1) { w with errno := K.EBADF } ∧
    __fxstat K env error0 1 fd st w = .ok (-1, st) { w with errno := K.EBADF } ∧
    dup K fd w = .ok (-1) { w with errno := K.EBADF } := by
  refine ⟨?_, ?_, ?_, ?_, ?_, ?_⟩
  · simp [ll_readdir, hfd]
  · simp [read, hfd]
  · simp [write, hfd]
  · simp [lseek, hfd]
  · simp [__fxstat, hfd]
  · simp [dup, hfd]

/-- Instance for C8: the descriptor 7 on a table of four slots; `-EBADF` is not `EBADF`. -/
theorem ll_readdir_invalid_fd_errno_witness :
    task_getfp K4 world0.t 7 = none ∧ -K4.EBADF ≠ K4.EBADF ∧
    (ll_readdir K4 envOk 7 [] world0 = .ok (-1, []) { world0 with errno := -K4.EBADF } ∧
     read K4 envOk 7 16 world0 = .ok (-1) { world0 with errno := K4.EBADF } ∧
     write K4 envOk 7 0 16 world0 = .ok (-1) { world0 with errno := K4.EBADF } ∧
     lseek K4 envOk 7 0 0 world0 = .ok (-1) { world0 with errno := K4.EBADF } ∧
     __fxstat K4 envOk 0 1 7 [] world0 = .ok (-1, []) { world0 with errno := K4.EBADF } ∧
     dup K4 7 world0 = .ok (-1) { world0 with errno := K4.EBADF }) :=
  ⟨by decide, by decide,
    ll_readdir_invalid_fd_errno K4 envOk 7 [] 16 0 0 0 [] 0 world0 (by decide)⟩

/-- C2: on a task with an empty slot, an `open` whose path translation and VFS open
succeed returns the lowest empty slot `k` of the state before the call, binds slot `k`
to the File Object the VFS returned and leaves every other slot as it was. Hence, when
`open` returned `A`, a second `open` returned `B` and `close(A)` returned 0, the next
`open` that succeeds returns `A` again. -/
theorem open_lowest_free_slot (K : Consts) (env : Env) :
    (∀ (w : World) (pathname : String) (flags mode : Int),
      (∃ i, i < K.OPEN_MAX ∧ w.t.t_ofile i = none) →
      (env.task_conv w.log.length pathname (open_acc K flags)).1 = 0 →
      (env.sys_open (w.log.length + 1)
        (env.task_conv w.log.length pathname (open_acc K flags)).2 flags mode).1 = 0 →
      ∃ (k : Nat) (w' : World),
        k < K.OPEN_MAX ∧ w.t.t_ofile k = none ∧ (∀ i, i < k → w.t.t_ofile i ≠ none) ∧
        «open» K env pathname flags mode w = .ok (k : Int) w' ∧
        w'.t.t_ofile k = some (env.sys_open (w.log.length + 1)
          (env.task_conv w.log.length pathname (open_acc K flags)).2 flags mode).2.1 ∧
        ∀ i, i ≠ k → w'.t.t_ofile i = w.t.t_ofile i) ∧
    (∀ (w0 w1 w2 w3 w4 : World) (p1 p2 p3 : String) (f1 m1 f2 m2 f3 m3 A B C : Int),
      «open» K env p1 f1 m1 w0 = .ok A w1 →
      «open» K env p2 f2 m2 w1 = .ok B w2 →
      close K env A w2 = .ok 0 w3 →
      «open» K env p3 f3 m3 w3 = .ok C w4 →
      C ≠ -1 →
      C = A) := by
  constructor
  · intro w pathname flags mode hfree hconv hopen
    obtain ⟨k, hk⟩ := exists_lowest_empty K w.t hfree
    obtain ⟨h1, h2, h3⟩ := (task_newfd_lowest K w.t k).1 hk
    refine ⟨k, _, h1, h2, h3, open_run_success K env w pathname flags mode k hk hconv hopen,
      ?_, ?_⟩
    · simp [setSlot]
    · intro i hi
      simp [setSlot, hi]
  · intro w0 w1 w2 w3 w4 p1 p2 p3 f1 m1 f2 m2 f3 m3 A B C hA hB hcl hC hCne
    obtain ⟨hA0, hAlt, hs3, _⟩ := close_task K env w2 w3 A hcl
    -- the first open succeeded on the lowest empty slot
    rcases open_task K env w0 w1 p1 f1 m1 A hA with ⟨hneg, _⟩ | ⟨k, fp, hk, hAk, hs1, _⟩
    · omega
    · obtain ⟨_, _, hlow⟩ := (task_newfd_lowest K w0.t k).1 hk
      have hAk' : A.toNat = k := by omega
      -- the slots up to `k` are bound after the first open
      have hb1 : ∀ i, i ≤ k → w1.t.t_ofile i ≠ none := by
        intro i hi
        rw [hs1]
        by_cases hik : i = k
        · simp [setSlot, hik]
        · simpa [setSlot, hik] using hlow i (by omega)
      -- and still after the second one
      have hb2 : ∀ i, i ≤ k → w2.t.t_ofile i ≠ none := by
        intro i hi
        rcases open_task K env w1 w2 p2 f2 m2 B hB with ⟨_, ht⟩ | ⟨k2, fp2, _, _, hs2, _⟩
        · rw [ht]
          exact hb1 i hi
        · rw [hs2]
          by_cases hik : i = k2
          · simp [setSlot, hik]
          · simpa [setSlot, hik] using hb1 i hi
      -- the third open finds slot `k`
      rcases open_task K env w3 w4 p3 f3 m3 C hC with ⟨hneg, _⟩ | ⟨k3, fp3, hk3, hCk, _, _⟩
      · exact absurd hneg hCne
      · obtain ⟨_, he3, hlow3⟩ := (task_newfd_lowest K w3.t k3).1 hk3
        rw [hs3, hAk'] at he3 hlow3
        have hkk : k3 = k := by
          rcases Nat.lt_trichotomy k3 k with hlt | heq | hgt
          · have hne : k3 ≠ k := by omega
            simp only [setSlot, hne, if_false] at he3
            exact absurd he3 (hb2 k3 (by omega))
          · exact heq
          · have := hlow3 k hgt
            simp [setSlot] at this
        omega

/-- Instance for C2: on the new task `open` returns 0, a second `open` returns 1, and
after `close(0)` the next `open` returns 0 again. -/
theorem open_lowest_free_slot_witness :
    ((∃ i, i < K4.OPEN_MAX ∧ world0.t.t_ofile i = none) ∧
      ∃ (k : Nat) (w' : World),
        k < K4.OPEN_MAX ∧ world0.t.t_ofile k = none ∧
        (∀ i, i < k → world0.t.t_ofile i ≠ none) ∧
        «open» K4 envOk "/a" 0 0 world0 = .ok (k : Int) w' ∧
        w'.t.t_ofile k = some 101 ∧
        ∀ i, i ≠ k → w'.t.t_ofile i = world0.t.t_ofile i) ∧
    («open» K4 envOk "/a" 0 0 world0 = .ok 0 worldA ∧
      «open» K4 envOk "/b" 0 0 worldA = .ok 1 worldAB ∧
      close K4 envOk 0 worldAB = .ok 0 worldB ∧
      «open» K4 envOk "/c" 0 0 worldB = .ok 0 worldBA ∧
      (0 : Int) ≠ -1 ∧ (0 : Int) = 0) :=
  ⟨⟨⟨0, by decide⟩,
    (open_lowest_free_slot K4 envOk).1 world0 "/a" 0 0 ⟨0, by decide⟩ (by decide) (by decide)⟩,
   rfl, rfl, rfl, rfl, by decide,
   (open_lowest_free_slot K4 envOk).2 world0 worldA worldAB worldB worldBA "/a" "/b" "/c"
     0 0 0 0 0 0 0 1 0 rfl rfl rfl rfl (by decide)⟩

/-- C4: when `oldfd` is bound to a live File Object and the table has an empty slot,
`dup(oldfd)` returns the lowest empty slot `n`, which is not `oldfd`; afterwards slot
`n` and slot `oldfd` hold the same File Object, its `f_count` and the reference count
of its vnode are one more than before, and every other slot is as before. When `oldfd`
is out of range or its slot is empty, `dup` returns `-1` with `errno = EBADF`; when
`oldfd` is bound and the table is full, `-1` with `errno = EMFILE`; in both cases
nothing but `errno` changes. -/
theorem dup_lowest_slot_shares_file (K : Consts) (w : World) (oldfd : Int) :
    (∀ (fp : file_t) (f : file),
      0 ≤ oldfd → oldfd < K.OPEN_MAX → w.t.t_ofile oldfd.toNat = some fp →
      w.files fp = some f →
      (∃ i, i < K.OPEN_MAX ∧ w.t.t_ofile i = none) →
      ∃ (n : Nat) (w' : World),
        n < K.OPEN_MAX ∧ w.t.t_ofile n = none ∧ (∀ i, i < n → w.t.t_ofile i ≠ none) ∧
        (n : Int) ≠ oldfd ∧
        dup K oldfd w = .ok (n : Int) w' ∧
        w'.t.t_ofile n = some fp ∧ w'.t.t_ofile oldfd.toNat = some fp ∧
        w'.files fp = some { f with f_count := f.f_count + 1 } ∧
        w'.v_refcnt f.f_vnode = w.v_refcnt f.f_vnode + 1 ∧
        (∀ i, i ≠ n → w'.t.t_ofile i = w.t.t_ofile i) ∧
        (∀ q, q ≠ fp → w'.files q = w.files q) ∧
        (∀ v, v ≠ f.f_vnode → w'.v_refcnt v = w.v_refcnt v)) ∧
    ((oldfd < 0 ∨ oldfd ≥ K.OPEN_MAX ∨ w.t.t_ofile oldfd.toNat = none) →
      dup K oldfd w = .ok (-1) { w with errno := K.EBADF }) ∧
    (∀ (fp : file_t),
      0 ≤ oldfd → oldfd < K.OPEN_MAX → w.t.t_ofile oldfd.toNat = some fp →
      (∀ i, i < K.OPEN_MAX → w.t.t_ofile i ≠ none) →
      dup K oldfd w = .ok (-1) { w with errno := K.EMFILE }) := by
  refine ⟨?_, ?_, ?_⟩
  · intro fp f h0 h1 hs hf hfree
    obtain ⟨n, hn⟩ := exists_lowest_empty K w.t hfree
    obtain ⟨hn1, hn2, hn3⟩ := (task_newfd_lowest K w.t n).1 hn
    have hgp : task_getfp K w.t oldfd = some fp := by
      simp [task_getfp, h0, h1, hs]
    have hno : (n : Int) ≠ oldfd := by
      intro e
      have : oldfd.toNat = n := by omega
      rw [this, hn2] at hs
      cases hs
    have hno' : oldfd.toNat ≠ n := by omega
    refine ⟨n, _, hn1, hn2, hn3, hno, dup_run_success K w oldfd fp f n hgp hf hn,
      ?_, ?_, ?_, ?_, ?_, ?_, ?_⟩
    · simp [setSlot]
    · simp [setSlot, hno', hs]
    · simp [setFile]
    · simp [addRef]
    · intro i hi
      simp [setSlot, hi]
    · intro q hq
      simp [setFile, hq]
    · intro v hv
      simp [addRef, hv]
  · intro h
    have hgp : task_getfp K w.t oldfd = none := by
      unfold task_getfp
      split
      · rename_i hr
        rcases h with h | h | h
        · omega
        · omega
        · exact h
      · rfl
    simp [dup, hgp]
  · intro fp h0 h1 hs hfull
    have hgp : task_getfp K w.t oldfd = some fp := by
      simp [task_getfp, h0, h1, hs]
    have hn := (task_newfd_full K w.t).2 hfull
    simp [dup, hgp, hn]

/-- Instance for C4: `dup(0)` with slot 0 bound, `dup(7)` out of range, and `dup(0)` on a
full table. -/
theorem dup_lowest_slot_shares_file_witness :
    ((0 : Int) ≤ 0 ∧ (0 : Int) < K4.OPEN_MAX ∧ worldOne.t.t_ofile (0 : Int).toNat = some 100 ∧
      worldOne.files 100 = some { f_vnode := 200, f_count := 1 } ∧
      (∃ i, i < K4.OPEN_MAX ∧ worldOne.t.t_ofile i = none) ∧
      ∃ (n : Nat) (w' : World),
        n < K4.OPEN_MAX ∧ worldOne.t.t_ofile n = none ∧
        (∀ i, i < n → worldOne.t.t_ofile i ≠ none) ∧
        (n : Int) ≠ 0 ∧
        dup K4 0 worldOne = .ok (n : Int) w' ∧
        w'.t.t_ofile n = some 100 ∧ w'.t.t_ofile (0 : Int).toNat = some 100 ∧
        w'.files 100 = some { f_vnode := 200, f_count := 1 + 1 } ∧
        w'.v_refcnt 200 = worldOne.v_refcnt 200 + 1 ∧
        (∀ i, i ≠ n → w'.t.t_ofile i = worldOne.t.t_ofile i) ∧
        (∀ q, q ≠ 100 → w'.files q = worldOne.files q) ∧
        (∀ v, v ≠ 200 → w'.v_refcnt v = worldOne.v_refcnt v)) ∧
    (((7 : Int) < 0 ∨ (7 : Int) ≥ K4.OPEN_MAX ∨ world0.t.t_ofile (7 : Int).toNat = none) ∧
      dup K4 7 world0 = .ok (-1) { world0 with errno := K4.EBADF }) ∧
    ((∀ i, i < K4.OPEN_MAX → worldFull.t.t_ofile i ≠ none) ∧
      dup K4 0 worldFull = .ok (-1) { worldFull with errno := K4.EMFILE }) :=
  ⟨⟨by decide, by decide, by decide, by decide, ⟨1, by decide⟩,
     (dup_lowest_slot_shares_file K4 worldOne 0).1 100 { f_vnode := 200, f_count := 1 }
       (by decide) (by decide) (by decide) (by decide) ⟨1, by decide⟩⟩,
   ⟨by decide, (dup_lowest_slot_shares_file K4 world0 7).2.1 (by decide)⟩,
   ⟨by decide, (dup_lowest_slot_shares_file K4 worldFull 0).2.2 100
       (by decide) (by decide) (by decide) (by decide)⟩⟩

/-- C5: `dup2(fd, fd)` on a descriptor that is the only one bound to its File Object
(share counter 1): `sys_close` brings the counter to zero and destroys the object, then
`dup2` binds the slot to the destroyed object again and reads `fp->f_vnode` from it.
The run ends in that access, with the slot bound to an object that is no longer
live. -/
theorem dup2_same_fd_uses_released_file (K : Consts) (env : Env) (w : World) (fd : Int)
    (fp : file_t) (f : file)
    (h0 : 0 ≤ fd) (h1 : fd < K.OPEN_MAX) (hs : w.t.t_ofile fd.toNat = some fp)
    (hf : w.files fp = some f) (hc : f.f_count = 1)
    (hcl : env.sys_close w.log.length fp = 0) :
    dup2 K env fd fd w = .fault (.released_object fp)
      { t := { t_ofile := setSlot w.t.t_ofile fd.toNat (some fp), t_nopens := w.t.t_nopens },
        errno := w.errno,
        files := setFile w.files fp none,
        v_refcnt := addRef w.v_refcnt f.f_vnode (-1),
        log := w.log ++ [.sys_close fp] } := by
  have hge : ¬ (fd ≥ (K.OPEN_MAX : Int)) := by omega
  simp [dup2, hge, ofile_get, h0, h1, hs, sys_close, hcl, deref, hf, hc, file_destroy,
    node_ref, ofile_set, setFile]

/-- Instance for C5: `dup2(0, 0)` in a state where the share counter of the File Object
of slot 0 equals the number of slots bound to it, which is one. -/
theorem dup2_same_fd_uses_released_file_witness :
    ((0 : Int) ≤ 0 ∧ (0 : Int) < K4.OPEN_MAX ∧ worldOne.t.t_ofile (0 : Int).toNat = some 100 ∧
      worldOne.files 100 = some { f_vnode := 200, f_count := 1 } ∧
      ((1 : Int) = slots_bound_to K4 worldOne.t 100) ∧ CountsMatch K4 worldOne ∧
      envOk.sys_close worldOne.log.length 100 = 0) ∧
    dup2 K4 envOk 0 0 worldOne = .fault (.released_object 100)
      { t := { t_ofile := setSlot worldOne.t.t_ofile (0 : Int).toNat (some 100),
               t_nopens := worldOne.t.t_nopens },
        errno := worldOne.errno,
        files := setFile worldOne.files 100 none,
        v_refcnt := addRef worldOne.v_refcnt 200 (-1),
        log := worldOne.log ++ [.sys_close 100] } :=
  ⟨⟨by decide, by decide, by decide, by decide, by decide, countsMatch_worldOne, by decide⟩,
   dup2_same_fd_uses_released_file K4 envOk worldOne 0 100 { f_vnode := 200, f_count := 1 }
     (by decide) (by decide) (by decide) (by decide) rfl (by decide)⟩

/-- C6: from the new task (every slot empty, `t_nopens = 0`), `open` returns 0 and
`dup(0)` returns 1; two slots are then bound while `t_nopens` is 1, since `dup` binds a
slot without counting it. After `close(0)` and `close(1)`, which both succeed, no slot
is bound and `t_nopens` is `-1`. -/
theorem dup_leaves_nopens_behind :
    «open» K4 envOk "/dev/console" K4.O_RDWR 0 world0 = .ok 0 worldConsole ∧
    dup K4 0 worldConsole = .ok 1 worldConsoleDup ∧
    world0.t.t_nopens = 0 ∧ nonempty_slots K4 world0.t = 0 ∧
    worldConsoleDup.t.t_nopens = 1 ∧ nonempty_slots K4 worldConsoleDup.t = 2 ∧
    close K4 envOk 0 worldConsoleDup = .ok 0 worldConsoleClose0 ∧
    close K4 envOk 1 worldConsoleClose0 = .ok 0 worldConsoleClose1 ∧
    worldConsoleClose1.t.t_nopens = -1 ∧ nonempty_slots K4 worldConsoleClose1.t = 0 :=
  ⟨run_eq_of_ret (by decide!), run_eq_of_ret (by decide!), by decide!, by decide!,
    by decide!, by decide!, run_eq_of_ret (by decide!), run_eq_of_ret (by decide!),
    by decide!, by decide!⟩

/-- C9 (amended): a failure of a bootfs `mkdir` or of a bootfs `creat` is fatal: the
boot halts in `sys_panic` right after the report of that failure and makes no further
call. No other failure named in the claim is: the steps up to the end of `mount_rootfs`
return whatever the mounts and the `mkdir` of `/dev` give, a halt of the boot is a halt
of `unpack_bootfs`, and the console steps never halt. -/
theorem vfs_init_fatal_failures (K : Consts) (env : Env) (md : List bootfs_metadata)
    (w0 : World) :
    (∃ w1, vfs_init_mount K env w0 = .ok () w1) ∧
    (∀ w1, vfs_init_mount K env w0 = .ok () w1 →
      vfs_init K env md w0 =
        match unpack_bootfs K env md w1 with
        | .ok _ w2 => console_open K env w2
        | .halt w' => .halt w'
        | .fault e w' => .fault e w') ∧
    (∀ w2, (console_open K env w2).isHalt = false) ∧
    (∀ (w1 w2 w3 : World) (pre post : List String) (d : String) (r : Int),
      vfs_init_mount K env w0 = .ok () w1 →
      dirs = pre ++ d :: post →
      unpack_dirs K env pre w1 = .ok () w2 →
      mkdir K env d 0o666 { w2 with log := w2.log ++ [.printf "creating %s"] } = .ok r w3 →
      r < 0 →
      vfs_init K env md w0
        = .halt { w3 with log := w3.log ++ [.perror "mkdir", .printf "foo"] }) ∧
    (∀ (w1 w2 w3 w4 : World) (pre post : List bootfs_metadata) (m : bootfs_metadata)
      (fd : Int),
      vfs_init_mount K env w0 = .ok () w1 →
      md = pre ++ m :: post → (∀ x, x ∈ pre → x.name ≠ "") → m.name ≠ "" →
      unpack_dirs K env dirs w1 = .ok () w2 →
      unpack_records K env pre w2 = .ok () w3 →
      creat K env m.name 0o666 { w3 with log := w3.log ++ [.printf "unpacking %s"] }
        = .ok fd w4 →
      fd < 0 →
      vfs_init K env md w0
        = .halt { w4 with log := w4.log ++
            [.printf "couldn't create %s: %d\n", .printf "foo"] }) := by
  refine ⟨?_, ?_, ?_, ?_, ?_⟩
  · obtain ⟨_, w1, h⟩ := returns_vfs_init_mount K env w0
    exact ⟨w1, h⟩
  · intro w1 h1
    exact vfs_init_run K env md w0 w1 h1
  · exact noHalt_console_open K env
  · intro w1 w2 w3 pre post d r h1 hd hpre hmk hr
    rw [vfs_init_run K env md w0 w1 h1]
    unfold unpack_bootfs
    simp only [bind_run]
    rw [hd, unpack_dirs_append, hpre]
    simp only [unpack_dirs, bind_run, printf_run, hmk, hr, if_true, perror_run, sys_panic_run,
      List.append_assoc, List.cons_append, List.nil_append]
  · intro w1 w2 w3 w4 pre post m fd h1 hmd hpre hm hdirs hrec hcr hfd
    rw [vfs_init_run K env md w0 w1 h1]
    subst hmd
    unfold unpack_bootfs
    simp only [bind_run, hdirs, unpack_files_append K env pre (m :: post) w2 hpre, hrec,
      unpack_files, hm, if_false, unpack_file, printf_run, hcr, hfd, if_true,
      sys_panic_run, List.append_assoc, List.cons_append, List.nil_append]

/-- Instances for C9: a boot in which the `mkdir` of `/usr/lib` fails, and a boot in which
the `creat` of the second bootfs record fails. -/
theorem vfs_init_fatal_failures_witness :
    (vfs_init_mount K4 envMkdirFails world0 = .ok () worldM1 ∧
      dirs = ["/usr"] ++ "/usr/lib" :: ["/usr/lib/jvm", "/usr/lib/jvm/jre",
        "/usr/lib/jvm/jre/lib", "/usr/lib/jvm/jre/lib/amd64",
        "/usr/lib/jvm/jre/lib/amd64/server"] ∧
      unpack_dirs K4 envMkdirFails ["/usr"] worldM1 = .ok () worldM2 ∧
      mkdir K4 envMkdirFails "/usr/lib" 0o666
        { worldM2 with log := worldM2.log ++ [.printf "creating %s"] } = .ok (-1) worldM3 ∧
      (-1 : Int) < 0 ∧
      vfs_init K4 envMkdirFails bootfsOne world0
        = .halt { worldM3 with log := worldM3.log ++ [.perror "mkdir", .printf "foo"] }) ∧
    (vfs_init_mount K4 envCreatFails world0 = .ok () worldF1 ∧
      bootfsTwo = [{ size := 4, offset := 0, name := "/a" }] ++
        { size := 2, offset := 4, name := "/b" } :: [{ size := 0, offset := 0, name := "" }] ∧
      (∀ x, x ∈ [({ size := 4, offset := 0, name := "/a" } : bootfs_metadata)] → x.name ≠ "") ∧
      ({ size := 2, offset := 4, name := "/b" } : bootfs_metadata).name ≠ "" ∧
      unpack_dirs K4 envCreatFails dirs worldF1 = .ok () worldF2 ∧
      unpack_records K4 envCreatFails [{ size := 4, offset := 0, name := "/a" }] worldF2
        = .ok () worldF3 ∧
      creat K4 envCreatFails "/b" 0o666
        { worldF3 with log := worldF3.log ++ [.printf "unpacking %s"] } = .ok (-1) worldF4 ∧
      (-1 : Int) < 0 ∧
      vfs_init K4 envCreatFails bootfsTwo world0
        = .halt { worldF4 with log := worldF4.log ++
            [.printf "couldn't create %s: %d\n", .printf "foo"] }) :=
  ⟨⟨run_eq_of_ret (by decide!), by decide, run_eq_of_ret (by decide!),
     run_eq_of_ret (by decide!), by decide,
     (vfs_init_fatal_failures K4 envMkdirFails bootfsOne world0).2.2.2.1
       worldM1 worldM2 worldM3 ["/usr"] _ "/usr/lib" (-1)
       (run_eq_of_ret (by decide!)) rfl (run_eq_of_ret (by decide!))
       (run_eq_of_ret (by decide!)) (by decide)⟩,
   ⟨run_eq_of_ret (by decide!), by decide, by decide, by decide,
     run_eq_of_ret (by decide!), run_eq_of_ret (by decide!), run_eq_of_ret (by decide!),
     by decide,
     (vfs_init_fatal_failures K4 envCreatFails bootfsTwo world0).2.2.2.2
       worldF1 worldF2 worldF3 worldF4 [{ size := 4, offset := 0, name := "/a" }] _
       { size := 2, offset := 4, name := "/b" } (-1)
       (run_eq_of_ret (by decide!)) rfl (by decide) (by decide)
       (run_eq_of_ret (by decide!)) (run_eq_of_ret (by decide!))
       (run_eq_of_ret (by decide!)) (by decide)⟩⟩

/-- C9, counterexample: the mount of the root filesystem fails with the error 5 and
every other call succeeds. The boot does not halt: `vfs_init` returns after it has
created `/dev`, mounted devfs, unpacked the bootfs and opened the console. -/
theorem vfs_init_survives_failed_root_mount :
    envRootMountFails.sys_mount 5 "" "/" "ramfs" 0 = 5 ∧
    (vfs_init K4 envRootMountFails bootfsOne world0).isHalt = false ∧
    (vfs_init K4 envRootMountFails bootfsOne world0).ret? = some () ∧
    (vfs_init K4 envRootMountFails bootfsOne world0).world.log =
      [.vnode_init, .task_alloc, .console_init, .vs_init "ramfs", .vs_init "devfs",
       .sys_mount "" "/" "ramfs" 0, .printf "failed to mount rootfs, error = %d\n",
       .task_conv "/dev" 2, .sys_mkdir "/dev" 493,
       .sys_mount "" "/dev" "devfs" 0, .printf "failed to mount devfs, error = %d\n",
       .printf "creating %s", .task_conv "/usr" 2, .sys_mkdir "/usr" 438,
       .printf "creating %s", .task_conv "/usr/lib" 2, .sys_mkdir "/usr/lib" 438,
       .printf "creating %s", .task_conv "/usr/lib/jvm" 2, .sys_mkdir "/usr/lib/jvm" 438,
       .printf "creating %s", .task_conv "/usr/lib/jvm/jre" 2,
       .sys_mkdir "/usr/lib/jvm/jre" 438,
       .printf "creating %s", .task_conv "/usr/lib/jvm/jre/lib" 2,
       .sys_mkdir "/usr/lib/jvm/jre/lib" 438,
       .printf "creating %s", .task_conv "/usr/lib/jvm/jre/lib/amd64" 2,
       .sys_mkdir "/usr/lib/jvm/jre/lib/amd64" 438,
       .printf "creating %s", .task_conv "/usr/lib/jvm/jre/lib/amd64/server" 2,
       .sys_mkdir "/usr/lib/jvm/jre/lib/amd64/server" 438,
       .printf "unpacking %s", .task_conv "/a/file.bin" 2,
       .sys_open "/a/file.bin" 577 438, .sys_write 134 0 4, .sys_close 134,
       .task_conv "/dev/console" 6, .sys_open "/dev/console" 2 0,
       .vref 238, .vref 238] := by
  refine ⟨by decide!, by decide!, by decide!, by decide!⟩

/-- C10, counterexample: the record has `size = 2 ^ 64 - 1` and the `write` fails.
`write` returns `-1`, which is not the size, but `ret != md[i].size` compares
`(uint64_t)-1` with the size and finds them equal: `unpack_bootfs` does not halt, it
closes the file, reaches the terminator and returns, with `errno` still set by the
failed `write`. -/
theorem unpack_bootfs_misses_failed_write :
    bootfsHuge = [{ size := 2 ^ 64 - 1, offset := 0, name := "/f" },
                  { size := 0, offset := 0, name := "" }] ∧
    (write K4 envWriteFails 0 0 (2 ^ 64 - 1) worldW2).ret? = some (-1) ∧
    (-1 : Int) ≠ ((2 ^ 64 - 1 : Nat) : Int) ∧
    ret_ne_size (-1) (2 ^ 64 - 1) = false ∧
    (unpack_bootfs K4 envWriteFails bootfsHuge world0).isHalt = false ∧
    (unpack_bootfs K4 envWriteFails bootfsHuge world0).ret? = some () ∧
    (unpack_bootfs K4 envWriteFails bootfsHuge world0).world.errno = 5 ∧
    (unpack_bootfs K4 envWriteFails bootfsHuge world0).world.log =
      worldW2.log ++ [.sys_write 123 0 (2 ^ 64 - 1), .sys_close 123] := by
  refine ⟨by decide!, by decide!, by decide!, by decide!, by decide!, by decide!,
    by decide!, by decide!⟩

/-- C10 (amended): for a bootfs record reached before the terminator whose size is
below `2 ^ 64 - 2 ^ 31`, and a `write` that returns `-1` or a byte count of at most the
size: when that result differs from the size, `unpack_bootfs` halts in `sys_panic` right
after the report of the failed write, without closing the file and without a step for
any further record. -/
theorem unpack_bootfs_write_mismatch_halts (K : Consts) (env : Env)
    (md : List bootfs_metadata) (w1 w2 w3 w4 w5 : World)
    (pre post : List bootfs_metadata) (m : bootfs_metadata) (fd r : Int)
    (hmd : md = pre ++ m :: post) (hpre : ∀ x, x ∈ pre → x.name ≠ "") (hm : m.name ≠ "")
    (hsize : m.size64 < 2 ^ 64 - 2 ^ 31)
    (hdirs : unpack_dirs K env dirs w1 = .ok () w2)
    (hrec : unpack_records K env pre w2 = .ok () w3)
    (hcr : creat K env m.name 0o666 { w3 with log := w3.log ++ [.printf "unpacking %s"] }
      = .ok fd w4)
    (hfd : ¬ fd < 0)
    (hwr : write K env fd m.offset64 m.size64 w4 = .ok r w5)
    (hr : r = -1 ∨ (0 ≤ r ∧ r ≤ (m.size64 : Int)))
    (hne : r ≠ (m.size64 : Int)) :
    unpack_bootfs K env md w1
      = .halt { w5 with log := w5.log ++
          [.printf "write failed, ret = %d, errno = %d\n", .printf "foo"] } := by
  have hcmp := ret_ne_size_exact r m.size64 hsize hr hne
  subst hmd
  unfold unpack_bootfs
  simp only [bind_run, hdirs, unpack_files_append K env pre (m :: post) w2 hpre, hrec,
    unpack_files, hm, if_false, unpack_file, printf_run, hcr, hfd, pure_run, hwr, hcmp, if_true,
    sys_panic_run, List.append_assoc, List.cons_append, List.nil_append]

/-- Instance for C10: the second record of `bootfsTwo` has size 2 and its `write`
transfers one byte; the boot halts after the report, and the log ends there. -/
theorem unpack_bootfs_write_mismatch_halts_witness :
    (bootfsTwo = [{ size := 4, offset := 0, name := "/a" }] ++
        { size := 2, offset := 4, name := "/b" } :: [{ size := 0, offset := 0, name := "" }] ∧
      (∀ x, x ∈ [({ size := 4, offset := 0, name := "/a" } : bootfs_metadata)] → x.name ≠ "") ∧
      ({ size := 2, offset := 4, name := "/b" } : bootfs_metadata).name ≠ "" ∧
      ({ size := 2, offset := 4, name := "/b" } : bootfs_metadata).size64 < 2 ^ 64 - 2 ^ 31 ∧
      unpack_dirs K4 envShortWrite dirs world0 = .ok () worldS2 ∧
      unpack_records K4 envShortWrite [{ size := 4, offset := 0, name := "/a" }] worldS2
        = .ok () worldS3 ∧
      creat K4 envShortWrite "/b" 0o666
        { worldS3 with log := worldS3.log ++ [.printf "unpacking %s"] } = .ok 0 worldS4 ∧
      ¬ ((0 : Int) < 0) ∧
      write K4 envShortWrite 0
        ({ size := 2, offset := 4, name := "/b" } : bootfs_metadata).offset64
        ({ size := 2, offset := 4, name := "/b" } : bootfs_metadata).size64 worldS4
        = .ok 1 worldS5 ∧
      ((1 : Int) = -1 ∨ ((0 : Int) ≤ 1 ∧
        (1 : Int) ≤ (({ size := 2, offset := 4, name := "/b" } : bootfs_metadata).size64 : Int))) ∧
      (1 : Int) ≠ (({ size := 2, offset := 4, name := "/b" } : bootfs_metadata).size64 : Int)) ∧
    unpack_bootfs K4 envShortWrite bootfsTwo world0
      = .halt { worldS5 with log := worldS5.log ++
          [.printf "write failed, ret = %d, errno = %d\n", .printf "foo"] } ∧
    (worldS5.log ++ [Call.printf "write failed, ret = %d, errno = %d\n", Call.printf "foo"]).drop 21
      = [.printf "unpacking %s", .task_conv "/a" 2, .sys_open "/a" 577 438,
         .sys_write 123 0 4, .sys_close 123,
         .printf "unpacking %s", .task_conv "/b" 2, .sys_open "/b" 577 438,
         .sys_write 128 4 2,
         .printf "write failed, ret = %d, errno = %d\n", .printf "foo"] :=
  ⟨⟨rfl, by decide, by decide, by decide!, run_eq_of_ret (by decide!),
     run_eq_of_ret (by decide!), run_eq_of_ret (by decide!), by decide,
     run_eq_of_ret (by decide!), by decide!, by decide!⟩,
   unpack_bootfs_write_mismatch_halts K4 envShortWrite bootfsTwo world0 worldS2 worldS3
     worldS4 worldS5 [{ size := 4, offset := 0, name := "/a" }]
     [{ size := 0, offset := 0, name := "" }] { size := 2, offset := 4, name := "/b" } 0 1
     rfl (by decide) (by decide) (by decide!) (run_eq_of_ret (by decide!))
     (run_eq_of_ret (by decide!)) (run_eq_of_ret (by decide!)) (by decide)
     (run_eq_of_ret (by decide!)) (by decide!) (by decide!),
   by decide!⟩

end Vfs
